/-
Verification of the MonoGL monochrome display stack: the Surface rasterizer
(surface.hpp / surface.cpp) and the Present double-buffer submission state
machine (present.hpp, present_types.hpp, font.hpp), checked against the
natural-language specification of the repository.

Modelling conventions of this shallow embedding:
- machine integers (int16_t, uint16_t, int32_t, uint8_t) are Int or Nat, with
  the wrap-around of every C++ integer cast made explicit (toInt16, toUInt16)
  exactly at the places the source performs a cast;
- a 1bpp byte buffer is a function from byte index to byte value;
- a C string is a list of byte values, cut at the first 0 byte;
- the while loops of DrawLine and DrawCircle are translated with an explicit
  iteration budget that dominates the number of iterations of the source loop;
- the Backend template parameter of Present is a record of pure functions and
  capability flags; each Present operation additionally returns the list of
  (FrameView, PresentMode) pairs it handed to the backend's Present entry.
-/
import Mathlib

namespace MonoGL

/-- Modelled from the spec: the LibXR status codes (libxr_def.hpp is not among
the sources; spec section 6 lists exactly the codes used by this stack). -/
inductive ErrorCode where
  | OK
  | INIT_ERR
  | ARG_ERR
  | SIZE_ERR
  | STATE_ERR
  | BUSY
  | NOT_SUPPORT
  deriving DecidableEq, Repr

/-- Two's-complement wrap to the int16_t range, as a C++ static_cast<int16_t>
performs on this platform. -/
def toInt16 (n : Int) : Int := (n + 32768) % 65536 - 32768

/-- Wrap to the uint16_t range (static_cast<uint16_t>). -/
def toUInt16 (n : Int) : Int := n % 65536

/-- Color from present_types.hpp: binary BLACK / WHITE. -/
inductive Color where
  | BLACK
  | WHITE
  deriving DecidableEq, Repr

/-- RasterOp from present_types.hpp: COPY / XOR / AND / OR. -/
inductive RasterOp where
  | COPY
  | XOR
  | AND
  | OR
  deriving DecidableEq, Repr

/-- Point with int16_t coordinates. -/
structure Point where
  x : Int
  y : Int
  deriving DecidableEq, Repr

/-- Size with uint16_t extents. -/
structure Size where
  w : Int
  h : Int
  deriving DecidableEq, Repr

/-- Rect with int16_t origin and uint16_t extents; the region is the
half-open box [x, x+w) x [y, y+h). -/
structure Rect where
  x : Int
  y : Int
  w : Int
  h : Int
  deriving DecidableEq, Repr

/-- rect_empty from present_types.hpp: rect.w == 0 || rect.h == 0. -/
def rect_empty (rect : Rect) : Bool := rect.w == 0 || rect.h == 0

/-- intersect_rect from present_types.hpp; intermediate arithmetic is int32_t
(exact on Int) and the result fields are cast back to int16_t / uint16_t. -/
def intersect_rect (a b : Rect) : Rect :=
  let LEFT := max a.x b.x
  let TOP := max a.y b.y
  let RIGHT := min (a.x + a.w) (b.x + b.w)
  let BOTTOM := min (a.y + a.h) (b.y + b.h)
  if RIGHT ≤ LEFT ∨ BOTTOM ≤ TOP then ⟨0, 0, 0, 0⟩
  else ⟨toInt16 LEFT, toInt16 TOP, toUInt16 (RIGHT - LEFT), toUInt16 (BOTTOM - TOP)⟩

/-- union_rect from present_types.hpp: an empty operand acts as identity. -/
def union_rect (a b : Rect) : Rect :=
  if rect_empty a then b
  else if rect_empty b then a
  else
    let LEFT := min a.x b.x
    let TOP := min a.y b.y
    let RIGHT := max (a.x + a.w) (b.x + b.w)
    let BOTTOM := max (a.y + a.h) (b.y + b.h)
    ⟨toInt16 LEFT, toInt16 TOP, toUInt16 (RIGHT - LEFT), toUInt16 (BOTTOM - TOP)⟩

/-- Font from font.hpp: fixed-size 1bpp glyph table (all fields uint8_t). -/
structure Font where
  glyph_width : Nat
  glyph_height : Nat
  first_char : Nat
  last_char : Nat
  ascent : Nat
  descent : Nat
  glyphs : Option (Nat → Nat)

/-- TextStyle from present_types.hpp. -/
structure TextStyle where
  font : Option Font
  color : Color
  raster_op : RasterOp
  scale_x : Nat
  scale_y : Nat
  letter_spacing : Int

/-- bounds_rect from surface.cpp. -/
def bounds_rect (size : Size) : Rect := ⟨0, 0, size.w, size.h⟩

/-- default_stride from surface.cpp: ceil(width / 8), 0 for zero width. -/
def default_stride (size : Size) : Int :=
  if size.w = 0 then 0 else (size.w + 7).tdiv 8

/-- font_ascent from surface.cpp: glyph_height when ascent is 0. -/
def font_ascent (font : Font) : Int :=
  if font.ascent = 0 then font.glyph_height else font.ascent

/-- font_descent from surface.cpp. -/
def font_descent (font : Font) : Int := font.descent

/-- font_line_height from surface.cpp: ascent plus descent, falling back to
glyph_height when that sum is not positive. -/
def font_line_height (font : Font) : Int :=
  let LINE_HEIGHT := font_ascent font + font_descent font
  if LINE_HEIGHT ≤ 0 then font.glyph_height else LINE_HEIGHT

/-- Surface from surface.hpp: a borrowed 1bpp byte buffer (none models a null
bits_ pointer), its size, its stride in bytes, the clip rect and the
accumulated dirty rect. -/
structure Surface where
  bits : Option (Nat → Nat)
  size : Size
  stride_bytes : Int
  clip : Rect
  dirty : Rect

/-- Default-constructed Surface: unbound, everything zero. -/
def Surface.init : Surface := ⟨none, ⟨0, 0⟩, 0, ⟨0, 0, 0, 0⟩, ⟨0, 0, 0, 0⟩⟩

/-- Surface::Bounds. -/
def Surface.Bounds (s : Surface) : Rect := bounds_rect s.size

/-- Surface::GetDirtyRect. -/
def Surface.GetDirtyRect (s : Surface) : Rect := s.dirty

/-- Surface::ClearDirtyRect. -/
def Surface.ClearDirtyRect (s : Surface) : Surface := { s with dirty := ⟨0, 0, 0, 0⟩ }

/-- Surface::MarkDirty: clip the rect to the bounds, drop it if empty, start
the dirty rect with it if the dirty rect was empty, else grow by union. -/
def Surface.MarkDirty (s : Surface) (rect : Rect) : Surface :=
  let clipped := intersect_rect rect s.Bounds
  if rect_empty clipped then s
  else if rect_empty s.dirty then { s with dirty := clipped }
  else { s with dirty := union_rect s.dirty clipped }

/-- Surface::AddDirtyRect. -/
def Surface.AddDirtyRect (s : Surface) (rect : Rect) : Surface := s.MarkDirty rect

/-- Surface::ResetClip. -/
def Surface.ResetClip (s : Surface) : Surface := { s with clip := s.Bounds }

/-- Surface::SetClip. -/
def Surface.SetClip (s : Surface) (rect : Rect) : Surface :=
  { s with clip := intersect_rect rect s.Bounds }

/-- Surface::GetClip. -/
def Surface.GetClip (s : Surface) : Rect := s.clip

/-- Surface::Bind: rebind to a new external buffer; stride 0 auto-computes
the default stride; clip is reset to full bounds and the dirty rect cleared. -/
def Surface.Bind (s : Surface) (bits : Option (Nat → Nat)) (size : Size)
    (stride_bytes : Int) : Surface :=
  let s1 : Surface := { s with
    bits := bits
    size := size
    stride_bytes := if stride_bytes = 0 then default_stride size else stride_bytes }
  (s1.ResetClip).ClearDirtyRect

/-- Surface::GetSize. -/
def Surface.GetSize (s : Surface) : Size := s.size

/-- Surface::GetStrideBytes. -/
def Surface.GetStrideBytes (s : Surface) : Int := s.stride_bytes

/-- Surface::InClip: whether a point lies inside the clip rect. -/
def Surface.InClip (s : Surface) (point : Point) : Bool :=
  if point.x < s.clip.x ∨ point.y < s.clip.y then false
  else if s.clip.x + s.clip.w ≤ point.x ∨ s.clip.y + s.clip.h ≤ point.y then false
  else true

/-- Write of one byte into a byte buffer. -/
def writeByte (buf : Nat → Nat) (i : Nat) (v : Nat) : Nat → Nat :=
  fun j => if j = i then v else buf j

/-- Surface::PlotUnchecked: combine the source bit into the destination byte
according to the raster op. The byte index computation mirrors the C++
size_t casts; all callers pass nonnegative in-clip coordinates. -/
def Surface.PlotUnchecked (s : Surface) (x y : Int) (color : Color)
    (raster_op : RasterOp) : Surface :=
  if s.stride_bytes = 0 then s
  else
    match s.bits with
    | none => s
    | some buf =>
      let BYTE_INDEX := y.toNat * s.stride_bytes.toNat + (x.tdiv 8).toNat
      let MASK : Nat := 128 >>> (x % 8).toNat
      let SRC_IS_SET := color = Color.WHITE
      let dst := buf BYTE_INDEX
      let v :=
        match raster_op with
        | RasterOp.COPY => if SRC_IS_SET then dst ||| MASK else dst &&& (MASK ^^^ 255)
        | RasterOp.XOR => if SRC_IS_SET then dst ^^^ MASK else dst
        | RasterOp.AND => if SRC_IS_SET then dst else dst &&& (MASK ^^^ 255)
        | RasterOp.OR => if SRC_IS_SET then dst ||| MASK else dst
      { s with bits := some (writeByte buf BYTE_INDEX v) }

/-- Observer (not part of the source): read one pixel bit of the buffer, the
way the backend or a test would sample the framebuffer. -/
def Surface.getPixel (s : Surface) (p : Point) : Bool :=
  match s.bits with
  | none => false
  | some buf =>
    let BYTE_INDEX := p.y.toNat * s.stride_bytes.toNat + (p.x.tdiv 8).toNat
    let MASK : Nat := 128 >>> (p.x % 8).toNat
    buf BYTE_INDEX &&& MASK != 0

/-- Surface::DrawPixel: no-op when unbound or outside the clip; else plot one
pixel and mark it dirty. -/
def Surface.DrawPixel (s : Surface) (point : Point) (color : Color)
    (raster_op : RasterOp) : Surface :=
  if s.bits.isNone ∨ s.InClip point = false then s
  else (s.PlotUnchecked point.x point.y color raster_op).MarkDirty
    ⟨point.x, point.y, 1, 1⟩

/-- Surface::Clear: fill every byte of the buffer and mark the whole bounds
dirty. -/
def Surface.Clear (s : Surface) (color : Color) : Surface :=
  match s.bits with
  | none => s
  | some buf =>
    if s.size.w = 0 ∨ s.size.h = 0 ∨ s.stride_bytes = 0 then s
    else
      let BYTES := (s.stride_bytes * s.size.h).toNat
      let FILL : Nat := if color = Color.WHITE then 255 else 0
      let s1 : Surface := { s with bits := some (fun i => if i < BYTES then FILL else buf i) }
      s1.MarkDirty s1.Bounds

/-- Surface::DrawHLine: normalize a negative length to a forward span, clip
the one-row rect, plot pixel by pixel and mark the clipped rect dirty once.
The per-pixel int16_t cast of the loop variable is kept. -/
def Surface.DrawHLine (s : Surface) (point : Point) (length : Int) (color : Color)
    (raster_op : RasterOp) : Surface :=
  if s.bits.isNone ∨ length = 0 then s
  else
    let x : Int := if length < 0 then point.x + length else point.x
    let span : Int := if length < 0 then -length else length
    if span ≤ 0 then s
    else
      let rect0 : Rect := ⟨toInt16 x, point.y, toUInt16 span, 1⟩
      let rect := intersect_rect rect0 s.clip
      if rect_empty rect then s
      else
        let s1 := (List.range rect.w.toNat).foldl
          (fun acc (i : Nat) => acc.PlotUnchecked (toInt16 (rect.x + i)) rect.y color raster_op) s
        s1.MarkDirty rect

/-- Surface::DrawVLine: vertical analogue of DrawHLine. -/
def Surface.DrawVLine (s : Surface) (point : Point) (length : Int) (color : Color)
    (raster_op : RasterOp) : Surface :=
  if s.bits.isNone ∨ length = 0 then s
  else
    let y : Int := if length < 0 then point.y + length else point.y
    let span : Int := if length < 0 then -length else length
    if span ≤ 0 then s
    else
      let rect0 : Rect := ⟨point.x, toInt16 y, 1, toUInt16 span⟩
      let rect := intersect_rect rect0 s.clip
      if rect_empty rect then s
      else
        let s1 := (List.range rect.h.toNat).foldl
          (fun acc (i : Nat) => acc.PlotUnchecked rect.x (toInt16 (rect.y + i)) color raster_op) s
        s1.MarkDirty rect

/-- Loop of Surface::DrawLine (Bresenham with doubled-error decision); the
iteration budget dominates the number of loop iterations of the source. -/
def drawLineGo (X1 Y1 DX DY SX SY : Int) (color : Color) (raster_op : RasterOp) :
    Nat → Surface → Int → Int → Int → Surface
  | 0, s, _, _, _ => s
  | fuel + 1, s, x0, y0, err =>
    let s1 := s.DrawPixel ⟨toInt16 x0, toInt16 y0⟩ color raster_op
    if x0 = X1 ∧ y0 = Y1 then s1
    else
      let E2 := 2 * err
      let errA := if DY ≤ E2 then err + DY else err
      let x0A := if DY ≤ E2 then x0 + SX else x0
      let errB := if E2 ≤ DX then errA + DX else errA
      let y0B := if E2 ≤ DX then y0 + SY else y0
      drawLineGo X1 Y1 DX DY SX SY color raster_op fuel s1 x0A y0B errB

/-- Surface::DrawLine: integer Bresenham from p0 to p1 inclusive; every
visited point goes through DrawPixel. -/
def Surface.DrawLine (s : Surface) (p0 p1 : Point) (color : Color)
    (raster_op : RasterOp) : Surface :=
  let DX : Int := (p1.x - p0.x).natAbs
  let SX : Int := if p0.x < p1.x then 1 else -1
  let DY : Int := -((p1.y - p0.y).natAbs : Int)
  let SY : Int := if p0.y < p1.y then 1 else -1
  drawLineGo p1.x p1.y DX DY SX SY color raster_op
    ((DX - DY).toNat + 1) s p0.x p0.y (DX + DY)

/-- Surface::DrawRect: top and bottom horizontal lines; left and right
vertical lines only when the height exceeds 2, restricted to interior rows.
The int16_t casts of the computed coordinates and lengths are kept. -/
def Surface.DrawRect (s : Surface) (rect : Rect) (color : Color)
    (raster_op : RasterOp) : Surface :=
  if rect_empty rect then s
  else
    let s1 := s.DrawHLine ⟨rect.x, rect.y⟩ (toInt16 rect.w) color raster_op
    let s2 :=
      if 1 < rect.h then
        s1.DrawHLine ⟨rect.x, toInt16 (rect.y + rect.h - 1)⟩ (toInt16 rect.w)
          color raster_op
      else s1
    if 2 < rect.h then
      let s3 := s2.DrawVLine ⟨rect.x, toInt16 (rect.y + 1)⟩ (toInt16 (rect.h - 2))
        color raster_op
      if 1 < rect.w then
        s3.DrawVLine ⟨toInt16 (rect.x + rect.w - 1), toInt16 (rect.y + 1)⟩
          (toInt16 (rect.h - 2)) color raster_op
      else s3
    else s2

/-- Surface::FillRect: clip to the clip rect, then fill row by row via
DrawHLine. -/
def Surface.FillRect (s : Surface) (rect0 : Rect) (color : Color)
    (raster_op : RasterOp) : Surface :=
  let rect := intersect_rect rect0 s.clip
  if rect_empty rect then s
  else
    (List.range rect.h.toNat).foldl
      (fun acc (i : Nat) => acc.DrawHLine ⟨rect.x, toInt16 (rect.y + i)⟩ (toInt16 rect.w)
        color raster_op) s

/-- Loop of Surface::DrawCircle (midpoint circle, 8-way symmetric plot); the
iteration budget dominates the number of loop iterations of the source. -/
def drawCircleGo (cx cy : Int) (color : Color) (raster_op : RasterOp) :
    Nat → Surface → Int → Int → Int → Surface
  | 0, s, _, _, _ => s
  | fuel + 1, s, x, y, err =>
    if x < y then s
    else
      let s1 := s.DrawPixel ⟨toInt16 (cx + x), toInt16 (cy + y)⟩ color raster_op
      let s2 := s1.DrawPixel ⟨toInt16 (cx + y), toInt16 (cy + x)⟩ color raster_op
      let s3 := s2.DrawPixel ⟨toInt16 (cx - y), toInt16 (cy + x)⟩ color raster_op
      let s4 := s3.DrawPixel ⟨toInt16 (cx - x), toInt16 (cy + y)⟩ color raster_op
      let s5 := s4.DrawPixel ⟨toInt16 (cx - x), toInt16 (cy - y)⟩ color raster_op
      let s6 := s5.DrawPixel ⟨toInt16 (cx - y), toInt16 (cy - x)⟩ color raster_op
      let s7 := s6.DrawPixel ⟨toInt16 (cx + y), toInt16 (cy - x)⟩ color raster_op
      let s8 := s7.DrawPixel ⟨toInt16 (cx + x), toInt16 (cy - y)⟩ color raster_op
      let y1 := y + 1
      if err < 0 then drawCircleGo cx cy color raster_op fuel s8 x y1 (err + 2 * y1 + 1)
      else drawCircleGo cx cy color raster_op fuel s8 (x - 1) y1
        (err + 2 * (y1 - (x - 1) + 1))

/-- Surface::DrawCircle: midpoint-circle algorithm without interior fill. -/
def Surface.DrawCircle (s : Surface) (center : Point) (radius : Nat) (color : Color)
    (raster_op : RasterOp) : Surface :=
  drawCircleGo center.x center.y color raster_op (radius + 2) s radius 0 (1 - radius)

/-- Surface::DrawBitmap: treat a foreign 1bpp buffer as a stencil; set bits
are drawn as the foreground color via DrawPixel, unset bits left untouched. -/
def Surface.DrawBitmap (s : Surface) (point : Point) (bits : Option (Nat → Nat))
    (size : Size) (foreground : Color) (raster_op : RasterOp) : Surface :=
  match bits with
  | none => s
  | some src =>
    if size.w = 0 ∨ size.h = 0 then s
    else
      let SRC_STRIDE := (default_stride size).toNat
      (List.range size.h.toNat).foldl (fun accY (y : Nat) =>
        (List.range size.w.toNat).foldl (fun acc (x : Nat) =>
          let BYTE := src (y * SRC_STRIDE + x / 8)
          let MASK : Nat := 128 >>> (x % 8)
          if BYTE &&& MASK != 0 then
            acc.DrawPixel ⟨toInt16 (point.x + x), toInt16 (point.y + y)⟩
              foreground raster_op
          else acc) accY) s

/-- Glyph blit of Surface::DrawText: every set glyph bit becomes a
scale_x x scale_y FillRect at the scaled position. -/
def drawTextGlyph (font : Font) (glyphs : Nat → Nat) (GLYPH_INDEX : Nat)
    (SCALE_X SCALE_Y : Nat) (color : Color) (raster_op : RasterOp)
    (cursor_x TOP_Y : Int) (s : Surface) : Surface :=
  let rowBytes := (font.glyph_width + 7) / 8
  let GLYPH_STRIDE := rowBytes * font.glyph_height
  (List.range font.glyph_height).foldl (fun accY (gy : Nat) =>
    (List.range font.glyph_width).foldl (fun acc (gx : Nat) =>
      let BYTE := glyphs (GLYPH_INDEX * GLYPH_STRIDE + gy * rowBytes + gx / 8)
      let MASK : Nat := 128 >>> (gx % 8)
      if BYTE &&& MASK != 0 then
        acc.FillRect ⟨toInt16 (cursor_x + gx * SCALE_X), toInt16 (TOP_Y + gy * SCALE_Y),
          SCALE_X, SCALE_Y⟩ color raster_op
      else acc) accY) s

/-- Character loop of Surface::DrawText: a newline byte (10) resets the
cursor x to the left margin and advances the baseline by the line height;
any other byte advances the cursor, drawing its glyph when in range. -/
def drawTextGo (font : Font) (glyphs : Nat → Nat) (SCALE_X SCALE_Y : Nat)
    (ADVANCE ASCENT LINE_HEIGHT : Int) (blx : Int) (color : Color)
    (raster_op : RasterOp) : Surface → Int → Int → List Nat → Surface
  | s, _, _, [] => s
  | s, cursor_x, baseline_y, ch :: rest =>
    if ch = 10 then
      drawTextGo font glyphs SCALE_X SCALE_Y ADVANCE ASCENT LINE_HEIGHT blx color
        raster_op s blx (baseline_y + LINE_HEIGHT * SCALE_Y + 1) rest
    else
      let TOP_Y := baseline_y - ASCENT * SCALE_Y
      let s1 :=
        if font.first_char ≤ ch ∧ ch ≤ font.last_char then
          drawTextGlyph font glyphs (ch - font.first_char) SCALE_X SCALE_Y color
            raster_op cursor_x TOP_Y s
        else s
      drawTextGo font glyphs SCALE_X SCALE_Y ADVANCE ASCENT LINE_HEIGHT blx color
        raster_op s1 (cursor_x + ADVANCE) baseline_y rest

/-- Surface::DrawText (baseline variant): validate text and font, compute the
effective scales, advance, ascent and line height, then run the character
loop on the text up to the first NUL byte. -/
def Surface.DrawText (s : Surface) (baseline_left : Point) (text : Option (List Nat))
    (style : TextStyle) : Surface :=
  match text, style.font with
  | some txt, some font =>
    match font.glyphs with
    | some glyphs =>
      if font.glyph_width = 0 ∨ font.glyph_height = 0 ∨
          font.last_char < font.first_char then s
      else
        let SCALE_X := if style.scale_x = 0 then 1 else style.scale_x
        let SCALE_Y := if style.scale_y = 0 then 1 else style.scale_y
        let ADVANCE : Int := font.glyph_width * SCALE_X + style.letter_spacing
        let ASCENT := font_ascent font
        let LINE_HEIGHT := font_line_height font
        drawTextGo font glyphs SCALE_X SCALE_Y ADVANCE ASCENT LINE_HEIGHT
          baseline_left.x style.color style.raster_op s baseline_left.x
          baseline_left.y (txt.takeWhile (fun c => c ≠ 0))
    | none => s
  | _, _ => s

/-- Surface::DrawText overload taking an explicit raster op. -/
def Surface.DrawTextOp (s : Surface) (baseline_left : Point)
    (text : Option (List Nat)) (style : TextStyle) (raster_op : RasterOp) : Surface :=
  s.DrawText baseline_left text { style with raster_op := raster_op }

/-- Surface::DrawTextTopLeft: compute the baseline from the top edge and the
scaled ascent, then delegate to the baseline variant. -/
def Surface.DrawTextTopLeft (s : Surface) (top_left : Point)
    (text : Option (List Nat)) (style : TextStyle) : Surface :=
  match style.font with
  | none => s.DrawText top_left text style
  | some font =>
    let SCALE_Y := if style.scale_y = 0 then 1 else style.scale_y
    let ASCENT := font_ascent font
    s.DrawText ⟨top_left.x, toInt16 (top_left.y + ASCENT * SCALE_Y)⟩ text style

/-- Surface::DrawTextTopLeft overload taking an explicit raster op. -/
def Surface.DrawTextTopLeftOp (s : Surface) (top_left : Point)
    (text : Option (List Nat)) (style : TextStyle) (raster_op : RasterOp) : Surface :=
  s.DrawTextTopLeft top_left text { style with raster_op := raster_op }

/-- Rotation from present_types.hpp. -/
inductive Rotation where
  | R0
  | R90
  | R180
  | R270
  deriving DecidableEq, Repr

/-- BufferMode from present_types.hpp. -/
inductive BufferMode where
  | FULL
  | PAGE
  deriving DecidableEq, Repr

/-- PresentMode from present_types.hpp. -/
inductive PresentMode where
  | AUTO
  | FULL
  | DIRTY
  deriving DecidableEq, Repr

/-- DisplayConfig from present_types.hpp. -/
structure DisplayConfig where
  width : Int
  height : Int
  rotation : Rotation
  buffer_mode : BufferMode
  page_rows : Nat
  enable_dirty_tracking : Bool

/-- FrameView from present_types.hpp: the immutable handoff to a backend. -/
structure FrameView where
  bits : Nat → Nat
  width : Int
  height : Int
  stride_bytes : Int
  dirty : Rect

/-- BackendCaps from present_types.hpp. -/
structure BackendCaps where
  partial_update : Bool
  power_save : Bool
  contrast : Bool
  async_present : Bool
  deriving DecidableEq, Repr

/-- Backend template parameter of Present, as a record of pure functions:
its capability report and its Present / SetPowerSave / SetContrast entries. -/
structure BackendModel where
  caps : BackendCaps
  presentFn : FrameView → PresentMode → ErrorCode
  setPowerSaveFn : Bool → ErrorCode
  setContrastFn : Nat → ErrorCode

/-- State of Present<Backend, kFramebufferBytes>: config, cached caps, the
two framebuffers, the Surface bound to the draw buffer, the draw-buffer
index, the in-flight transfer flag and the initialized / in-frame flags. -/
structure PresentState where
  cfg : DisplayConfig
  caps : BackendCaps
  fb0 : Nat → Nat
  fb1 : Nat → Nat
  surface : Surface
  draw_buffer_index : Nat
  transfer_in_progress : Bool
  initialized : Bool
  in_frame : Bool

namespace Present

/-- Backend Present invocations recorded by one operation. -/
abbrev CallTrace := List (FrameView × PresentMode)

/-- Framebuffer selected by index (framebuffers_[i]). -/
def fbAt (s : PresentState) (i : Nat) : Nat → Nat :=
  if i = 0 then s.fb0 else s.fb1

/-- Replacement of the framebuffer at an index. -/
def setFbAt (s : PresentState) (i : Nat) (b : Nat → Nat) : PresentState :=
  if i = 0 then { s with fb0 := b } else { s with fb1 := b }

/-- Present::FullRect. -/
def FullRect (cfg : DisplayConfig) : Rect := ⟨0, 0, cfg.width, cfg.height⟩

/-- Present::ClipToFrame. -/
def ClipToFrame (rect : Rect) (cfg : DisplayConfig) : Rect :=
  intersect_rect rect (FullRect cfg)

/-- Present::StrideBytes: ceil(width / 8). -/
def StrideBytes (cfg : DisplayConfig) : Int := (cfg.width + 7).tdiv 8

/-- Present::IsTransferInProgress. -/
def IsTransferInProgress (s : PresentState) : Bool := s.transfer_in_progress

/-- Present::BindDrawSurface: bind the Surface to the current draw buffer. -/
def BindDrawSurface (s : PresentState) : PresentState :=
  let sf := s.surface.Bind (some (fbAt s s.draw_buffer_index))
    (Size.mk s.cfg.width s.cfg.height) (StrideBytes s.cfg)
  { s with surface := sf }

/-- Byte-range copy used by CopyRegionBetweenBuffers: copy n bytes starting
at a row offset from src into dst. -/
def copyBytes (src dst : Nat → Nat) (off n : Nat) : Nat → Nat :=
  (List.range n).foldl (fun acc (k : Nat) => fun j => if j = off + k then src (off + k) else acc j) dst

/-- Present::CopyRegionBetweenBuffers: byte-granular per-row copy of the
whole bytes spanning the clipped rect's column range. -/
def CopyRegionBetweenBuffers (s : PresentState) (src_index dst_index : Nat)
    (region : Rect) : PresentState :=
  let CLIPPED := ClipToFrame region s.cfg
  if rect_empty CLIPPED then s
  else
    let STRIDE := StrideBytes s.cfg
    let X_BYTE_START := CLIPPED.x.tdiv 8
    let X_BYTE_END := (CLIPPED.x + CLIPPED.w + 7).tdiv 8
    let COPY_BYTES := (X_BYTE_END - X_BYTE_START).toNat
    if COPY_BYTES = 0 then s
    else
      let src := fbAt s src_index
      let dst := fbAt s dst_index
      let dst2 := (List.range CLIPPED.h.toNat).foldl (fun acc (row : Nat) =>
        let y := CLIPPED.y + row
        let ROW_OFFSET := (y.toNat * STRIDE.toNat + X_BYTE_START.toNat)
        copyBytes src acc ROW_OFFSET COPY_BYTES) dst
      setFbAt s dst_index dst2

/-- Present::SwapToNextDrawBuffer: sync the submitted region into the other
buffer, flip the draw index, rebind the Surface, clear the dirty rect. -/
def SwapToNextDrawBuffer (s : PresentState) (sync_region : Rect) : PresentState :=
  let SUBMITTED := s.draw_buffer_index
  let NEXT := SUBMITTED ^^^ 1
  let s1 := CopyRegionBetweenBuffers s SUBMITTED NEXT sync_region
  let s2 := { s1 with draw_buffer_index := NEXT }
  let s3 := BindDrawSurface s2
  { s3 with surface := s3.surface.ClearDirtyRect }

/-- Present::SubmitFrame: synchronous backends present in place (clearing the
dirty rect on success); asynchronous backends reject with BUSY while a
transfer is in flight, and on success set the flag and swap buffers. -/
def SubmitFrame (B : BackendModel) (s : PresentState) (region : Rect)
    (mode : PresentMode) : ErrorCode × PresentState × CallTrace :=
  let frame : FrameView := ⟨fbAt s s.draw_buffer_index, s.cfg.width, s.cfg.height,
    StrideBytes s.cfg, region⟩
  if s.caps.async_present = false then
    let STATUS := B.presentFn frame mode
    if STATUS = ErrorCode.OK then
      (STATUS, { s with surface := s.surface.ClearDirtyRect }, [(frame, mode)])
    else (STATUS, s, [(frame, mode)])
  else if s.transfer_in_progress then (ErrorCode.BUSY, s, [])
  else
    let STATUS := B.presentFn frame mode
    if STATUS = ErrorCode.OK then
      (ErrorCode.OK, SwapToNextDrawBuffer { s with transfer_in_progress := true } region,
        [(frame, mode)])
    else (STATUS, s, [(frame, mode)])

/-- Region-and-mode resolution step of Present::PresentFrame(PresentMode):
lack of partial_update downgrades AUTO / DIRTY to FULL; FULL (or AUTO
without dirty tracking) selects the full frame; otherwise the accumulated
dirty rect is clipped, and none is returned when it comes out empty (the
caller then returns OK without submitting). -/
def ResolvePresent (s : PresentState) (mode : PresentMode) :
    Option (Rect × PresentMode) :=
  let resolved := if s.caps.partial_update = false ∧
      (mode = PresentMode.AUTO ∨ mode = PresentMode.DIRTY) then PresentMode.FULL else mode
  if resolved = PresentMode.FULL ∨
      (resolved = PresentMode.AUTO ∧ s.cfg.enable_dirty_tracking = false) then
    some (FullRect s.cfg, PresentMode.FULL)
  else
    let region := ClipToFrame s.surface.GetDirtyRect s.cfg
    if rect_empty region then none
    else some (region, PresentMode.DIRTY)

/-- Present::PresentFrame(PresentMode). -/
def PresentFrame (B : BackendModel) (s : PresentState) (mode : PresentMode) :
    ErrorCode × PresentState × CallTrace :=
  if s.initialized = false then (ErrorCode.INIT_ERR, s, [])
  else
    match ResolvePresent s mode with
    | none => (ErrorCode.OK, s, [])
    | some (region, resolved) => SubmitFrame B s region resolved

/-- Present::PresentFrame(Rect): an explicit dirty rect is clipped to the
frame; an empty clip result is rejected with ARG_ERR; without partial_update
the submission is widened to the full frame. -/
def PresentFrameRect (B : BackendModel) (s : PresentState) (dirty_rect : Rect) :
    ErrorCode × PresentState × CallTrace :=
  if s.initialized = false then (ErrorCode.INIT_ERR, s, [])
  else
    let clipped_dirty := ClipToFrame dirty_rect s.cfg
    if rect_empty clipped_dirty then (ErrorCode.ARG_ERR, s, [])
    else
      let mode := if s.caps.partial_update then PresentMode.DIRTY else PresentMode.FULL
      let region := if mode = PresentMode.FULL then FullRect s.cfg else clipped_dirty
      SubmitFrame B s region mode

/-- Present::OnTransferDone: reject when uninitialized or not async-capable;
clear the in-flight flag by compare-and-exchange, rejecting a duplicate or
spurious completion with STATE_ERR. -/
def OnTransferDone (s : PresentState) : ErrorCode × PresentState :=
  if s.initialized = false then (ErrorCode.INIT_ERR, s)
  else if s.caps.async_present = false then (ErrorCode.NOT_SUPPORT, s)
  else if s.transfer_in_progress then
    (ErrorCode.OK, { s with transfer_in_progress := false })
  else (ErrorCode.STATE_ERR, s)

/-- Present::BeginFrame. -/
def BeginFrame (s : PresentState) : ErrorCode × PresentState :=
  if s.initialized = false then (ErrorCode.INIT_ERR, s)
  else if s.in_frame then (ErrorCode.BUSY, s)
  else (ErrorCode.OK, { s with in_frame := true })

/-- Present::EndFrame. -/
def EndFrame (s : PresentState) : ErrorCode × PresentState :=
  if s.initialized = false then (ErrorCode.INIT_ERR, s)
  else if s.in_frame = false then (ErrorCode.ARG_ERR, s)
  else (ErrorCode.OK, { s with in_frame := false })

/-- Present::SetRotation: store the rotation and mark the full frame dirty;
no capability gate and no backend call. -/
def SetRotation (s : PresentState) (rotation : Rotation) : ErrorCode × PresentState :=
  if s.initialized = false then (ErrorCode.INIT_ERR, s)
  else
    let s1 := { s with cfg := { s.cfg with rotation := rotation } }
    (ErrorCode.OK, { s1 with surface := s1.surface.AddDirtyRect (FullRect s1.cfg) })

/-- Present::SetPowerSave: pass-through gated by the cached power_save flag. -/
def SetPowerSave (B : BackendModel) (s : PresentState) (enable : Bool) : ErrorCode :=
  if s.initialized = false then ErrorCode.INIT_ERR
  else if s.caps.power_save = false then ErrorCode.NOT_SUPPORT
  else B.setPowerSaveFn enable

/-- Present::SetContrast: pass-through gated by the cached contrast flag. -/
def SetContrast (B : BackendModel) (s : PresentState) (value : Nat) : ErrorCode :=
  if s.initialized = false then ErrorCode.INIT_ERR
  else if s.caps.contrast = false then ErrorCode.NOT_SUPPORT
  else B.setContrastFn value

end Present

/-- One call of the public mutating Surface API, for reasoning about
arbitrary operation sequences. -/
inductive SurfOp where
  | bind (bits : Option (Nat → Nat)) (size : Size) (stride : Int)
  | clear (color : Color)
  | setClip (rect : Rect)
  | resetClip
  | drawPixel (p : Point) (c : Color) (rop : RasterOp)
  | drawHLine (p : Point) (length : Int) (c : Color) (rop : RasterOp)
  | drawVLine (p : Point) (length : Int) (c : Color) (rop : RasterOp)
  | drawLine (p0 p1 : Point) (c : Color) (rop : RasterOp)
  | drawRect (r : Rect) (c : Color) (rop : RasterOp)
  | fillRect (r : Rect) (c : Color) (rop : RasterOp)
  | drawCircle (center : Point) (radius : Nat) (c : Color) (rop : RasterOp)
  | drawBitmap (p : Point) (bits : Option (Nat → Nat)) (size : Size)
      (fg : Color) (rop : RasterOp)
  | drawText (p : Point) (text : Option (List Nat)) (style : TextStyle)
  | drawTextTopLeft (p : Point) (text : Option (List Nat)) (style : TextStyle)
  | addDirtyRect (r : Rect)
  | clearDirtyRect

/-- Dispatch of one SurfOp to the corresponding Surface operation. -/
def Surface.ApplyOp (s : Surface) : SurfOp → Surface
  | SurfOp.bind bits size stride => s.Bind bits size stride
  | SurfOp.clear c => s.Clear c
  | SurfOp.setClip r => s.SetClip r
  | SurfOp.resetClip => s.ResetClip
  | SurfOp.drawPixel p c rop => s.DrawPixel p c rop
  | SurfOp.drawHLine p l c rop => s.DrawHLine p l c rop
  | SurfOp.drawVLine p l c rop => s.DrawVLine p l c rop
  | SurfOp.drawLine p0 p1 c rop => s.DrawLine p0 p1 c rop
  | SurfOp.drawRect r c rop => s.DrawRect r c rop
  | SurfOp.fillRect r c rop => s.FillRect r c rop
  | SurfOp.drawCircle ctr rad c rop => s.DrawCircle ctr rad c rop
  | SurfOp.drawBitmap p bits size fg rop => s.DrawBitmap p bits size fg rop
  | SurfOp.drawText p text style => s.DrawText p text style
  | SurfOp.drawTextTopLeft p text style => s.DrawTextTopLeft p text style
  | SurfOp.addDirtyRect r => s.AddDirtyRect r
  | SurfOp.clearDirtyRect => s.ClearDirtyRect

/-- Value range of an int16_t point, as enforced by the C++ types. -/
def ValidPoint (p : Point) : Prop :=
  -32768 ≤ p.x ∧ p.x < 32768 ∧ -32768 ≤ p.y ∧ p.y < 32768

/-- Value range of a uint16_t size. -/
def ValidSize (z : Size) : Prop := 0 ≤ z.w ∧ z.w < 65536 ∧ 0 ≤ z.h ∧ z.h < 65536

/-- Value range of an int16_t / uint16_t rect. -/
def ValidRect (r : Rect) : Prop :=
  -32768 ≤ r.x ∧ r.x < 32768 ∧ -32768 ≤ r.y ∧ r.y < 32768 ∧
    0 ≤ r.w ∧ r.w < 65536 ∧ 0 ≤ r.h ∧ r.h < 65536

/-- Region containment of half-open rects: a is empty, or its box lies
inside the box of b. -/
def rectSubset (a b : Rect) : Prop :=
  (a.w ≤ 0 ∨ a.h ≤ 0) ∨
    (b.x ≤ a.x ∧ b.y ≤ a.y ∧ a.x + a.w ≤ b.x + b.w ∧ a.y + a.h ≤ b.y + b.h)

/-- Value ranges of one SurfOp's arguments, as enforced by the C++ types of
the corresponding Surface member (int16_t points and lengths, uint16_t
sizes and rect fields, uint8_t radius and text scales). -/
def SurfOp.wf : SurfOp → Prop
  | SurfOp.bind _ size stride => ValidSize size ∧ 0 ≤ stride ∧ stride < 65536
  | SurfOp.clear _ => True
  | SurfOp.setClip r => ValidRect r
  | SurfOp.resetClip => True
  | SurfOp.drawPixel p _ _ => ValidPoint p
  | SurfOp.drawHLine p l _ _ => ValidPoint p ∧ -32768 ≤ l ∧ l < 32768
  | SurfOp.drawVLine p l _ _ => ValidPoint p ∧ -32768 ≤ l ∧ l < 32768
  | SurfOp.drawLine p0 p1 _ _ => ValidPoint p0 ∧ ValidPoint p1
  | SurfOp.drawRect r _ _ => ValidRect r
  | SurfOp.fillRect r _ _ => ValidRect r
  | SurfOp.drawCircle ctr rad _ _ => ValidPoint ctr ∧ rad < 256
  | SurfOp.drawBitmap p _ size _ _ => ValidPoint p ∧ ValidSize size
  | SurfOp.drawText p _ style =>
      ValidPoint p ∧ style.scale_x < 256 ∧ style.scale_y < 256
  | SurfOp.drawTextTopLeft p _ style =>
      ValidPoint p ∧ style.scale_x < 256 ∧ style.scale_y < 256
  | SurfOp.addDirtyRect r => ValidRect r
  | SurfOp.clearDirtyRect => True

/-- Invariant of the Surface state: the size is a uint16_t size, clip and
dirty are representable rects, and the dirty rect is contained in the frame
bounds of the currently bound size. -/
def SurfInv (s : Surface) : Prop :=
  ValidSize s.size ∧ ValidRect s.clip ∧ ValidRect s.dirty ∧
    rectSubset s.dirty (bounds_rect s.size)

theorem toInt16_lb (n : Int) : -32768 ≤ toInt16 n := by
  unfold toInt16; omega

theorem toInt16_ub (n : Int) : toInt16 n < 32768 := by
  unfold toInt16; omega

theorem toInt16_eq_self (n : Int) (h1 : -32768 ≤ n) (h2 : n < 32768) :
    toInt16 n = n := by
  unfold toInt16; omega

theorem toUInt16_lb (n : Int) : 0 ≤ toUInt16 n := by
  unfold toUInt16; omega

theorem toUInt16_ub (n : Int) : toUInt16 n < 65536 := by
  unfold toUInt16; omega

theorem toUInt16_eq_self (n : Int) (h1 : 0 ≤ n) (h2 : n < 65536) :
    toUInt16 n = n := by
  unfold toUInt16; omega

theorem rect_empty_iff (r : Rect) : rect_empty r = true ↔ (r.w = 0 ∨ r.h = 0) := by
  simp [rect_empty]

theorem rect_empty_eq_false_iff (r : Rect) :
    rect_empty r = false ↔ (r.w ≠ 0 ∧ r.h ≠ 0) := by
  simp [rect_empty]

theorem intersect_props (a b : Rect) (ha : ValidRect a) (hb : ValidRect b) :
    ValidRect (intersect_rect a b) ∧ rectSubset (intersect_rect a b) a ∧
      rectSubset (intersect_rect a b) b := by
  unfold ValidRect at ha hb
  unfold intersect_rect
  dsimp only
  split
  · exact ⟨by unfold ValidRect; dsimp only; omega,
      Or.inl (by dsimp only; omega), Or.inl (by dsimp only; omega)⟩
  · rename_i h
    rw [toInt16_eq_self _ (by omega) (by omega), toInt16_eq_self _ (by omega) (by omega),
      toUInt16_eq_self _ (by omega) (by omega), toUInt16_eq_self _ (by omega) (by omega)]
    refine ⟨by unfold ValidRect; dsimp only; omega, ?_, ?_⟩
    · exact Or.inr (by dsimp only; omega)
    · exact Or.inr (by dsimp only; omega)

theorem union_props (a b c : Rect) (ha : ValidRect a) (hb : ValidRect b)
    (hc : ValidRect c) (hac : rectSubset a c) (hbc : rectSubset b c)
    (hcx : 0 ≤ c.x) (hcw : c.x + c.w < 65536) (hcy : 0 ≤ c.y)
    (hch : c.y + c.h < 65536) :
    ValidRect (union_rect a b) ∧ rectSubset (union_rect a b) c := by
  unfold ValidRect at ha hb hc
  unfold rectSubset at hac hbc
  unfold union_rect
  dsimp only
  split
  · exact ⟨by unfold ValidRect; omega, hbc⟩
  · split
    · exact ⟨by unfold ValidRect; omega, hac⟩
    · rename_i h1 h2
      simp only [Bool.not_eq_true, rect_empty_eq_false_iff] at h1 h2
      rw [toInt16_eq_self _ (by omega) (by omega), toInt16_eq_self _ (by omega) (by omega),
        toUInt16_eq_self _ (by omega) (by omega), toUInt16_eq_self _ (by omega) (by omega)]
      refine ⟨by unfold ValidRect; dsimp only; omega, Or.inr (by dsimp only; omega)⟩

theorem validRect_bounds (z : Size) (hz : ValidSize z) : ValidRect (bounds_rect z) := by
  unfold ValidSize at hz
  unfold ValidRect bounds_rect
  dsimp only
  omega

theorem MarkDirty_size (s : Surface) (r : Rect) : (s.MarkDirty r).size = s.size := by
  unfold Surface.MarkDirty
  dsimp only
  split
  · rfl
  · split <;> rfl

theorem MarkDirty_clip (s : Surface) (r : Rect) : (s.MarkDirty r).clip = s.clip := by
  unfold Surface.MarkDirty
  dsimp only
  split
  · rfl
  · split <;> rfl

theorem MarkDirty_bits (s : Surface) (r : Rect) : (s.MarkDirty r).bits = s.bits := by
  unfold Surface.MarkDirty
  dsimp only
  split
  · rfl
  · split <;> rfl

theorem MarkDirty_stride (s : Surface) (r : Rect) :
    (s.MarkDirty r).stride_bytes = s.stride_bytes := by
  unfold Surface.MarkDirty
  dsimp only
  split
  · rfl
  · split <;> rfl

theorem Plot_size (s : Surface) (x y : Int) (c : Color) (rop : RasterOp) :
    (s.PlotUnchecked x y c rop).size = s.size := by
  unfold Surface.PlotUnchecked
  split
  · rfl
  · split <;> rfl

theorem Plot_clip (s : Surface) (x y : Int) (c : Color) (rop : RasterOp) :
    (s.PlotUnchecked x y c rop).clip = s.clip := by
  unfold Surface.PlotUnchecked
  split
  · rfl
  · split <;> rfl

theorem Plot_dirty (s : Surface) (x y : Int) (c : Color) (rop : RasterOp) :
    (s.PlotUnchecked x y c rop).dirty = s.dirty := by
  unfold Surface.PlotUnchecked
  split
  · rfl
  · split <;> rfl

theorem Plot_stride (s : Surface) (x y : Int) (c : Color) (rop : RasterOp) :
    (s.PlotUnchecked x y c rop).stride_bytes = s.stride_bytes := by
  unfold Surface.PlotUnchecked
  split
  · rfl
  · split <;> rfl

theorem SurfInv_of_eq (s t : Surface) (h : SurfInv s) (hsz : t.size = s.size)
    (hc : t.clip = s.clip) (hd : t.dirty = s.dirty) : SurfInv t := by
  unfold SurfInv at *
  rw [hsz, hc, hd]
  exact h

theorem foldl_preserve {α : Type} (P : Surface → Prop) (f : Surface → α → Surface)
    (hf : ∀ s a, P s → P (f s a)) :
    ∀ (l : List α) (s : Surface), P s → P (l.foldl f s) := by
  intro l
  induction l with
  | nil => intro s hs; exact hs
  | cons a t ih => intro s hs; exact ih _ (hf _ _ hs)

theorem MarkDirty_inv (s : Surface) (r : Rect) (hs : SurfInv s) (hr : ValidRect r) :
    SurfInv (s.MarkDirty r) := by
  obtain ⟨hz, hclip, hdirty, hsub⟩ := hs
  have hbv : ValidRect (bounds_rect s.size) := validRect_bounds _ hz
  have hint := intersect_props r (bounds_rect s.size) hr hbv
  unfold ValidSize at hz
  unfold Surface.MarkDirty
  dsimp only
  split
  · exact ⟨hz, hclip, hdirty, hsub⟩
  · split
    · exact ⟨hz, hclip, hint.1, hint.2.2⟩
    · have hu := union_props s.dirty (intersect_rect r s.Bounds) (bounds_rect s.size)
        hdirty hint.1 hbv hsub hint.2.2
        (by unfold bounds_rect; dsimp only; omega)
        (by unfold bounds_rect; dsimp only; omega)
        (by unfold bounds_rect; dsimp only; omega)
        (by unfold bounds_rect; dsimp only; omega)
      exact ⟨hz, hclip, hu.1, hu.2⟩

theorem validPoint_toInt16 (a b : Int) : ValidPoint ⟨toInt16 a, toInt16 b⟩ :=
  ⟨toInt16_lb a, toInt16_ub a, toInt16_lb b, toInt16_ub b⟩

theorem DrawPixel_inv (s : Surface) (p : Point) (c : Color) (rop : RasterOp)
    (hs : SurfInv s) (hp : ValidPoint p) : SurfInv (s.DrawPixel p c rop) := by
  unfold Surface.DrawPixel
  split
  · exact hs
  · refine MarkDirty_inv _ _ ?_ ?_
    · exact SurfInv_of_eq s _ hs (Plot_size ..) (Plot_clip ..) (Plot_dirty ..)
    · obtain ⟨h1, h2, h3, h4⟩ := hp
      unfold ValidRect
      dsimp only
      omega

theorem plotFoldl_shape (s : Surface) (l : List Nat)
    (f : Surface → Nat → Surface)
    (hf : ∀ t i, (f t i).size = t.size ∧ (f t i).clip = t.clip ∧ (f t i).dirty = t.dirty) :
    (l.foldl f s).size = s.size ∧ (l.foldl f s).clip = s.clip ∧
      (l.foldl f s).dirty = s.dirty := by
  have := foldl_preserve
    (fun t => t.size = s.size ∧ t.clip = s.clip ∧ t.dirty = s.dirty)
    f (fun t i ht => by
      obtain ⟨a, b, c⟩ := ht
      obtain ⟨a2, b2, c2⟩ := hf t i
      exact ⟨a2.trans a, b2.trans b, c2.trans c⟩) l s ⟨rfl, rfl, rfl⟩
  exact this

theorem validRect_fields (x y w h : Int) (h1 : -32768 ≤ x) (h2 : x < 32768)
    (h3 : -32768 ≤ y) (h4 : y < 32768) (h5 : 0 ≤ w) (h6 : w < 65536) (h7 : 0 ≤ h)
    (h8 : h < 65536) : ValidRect ⟨x, y, w, h⟩ := ⟨h1, h2, h3, h4, h5, h6, h7, h8⟩

theorem hlineBody_inv (s : Surface) (r0 : Rect) (c : Color) (rop : RasterOp)
    (hs : SurfInv s) (hr0 : ValidRect r0) :
    SurfInv (if rect_empty (intersect_rect r0 s.clip) = true then s
      else Surface.MarkDirty
        ((List.range (intersect_rect r0 s.clip).w.toNat).foldl
          (fun acc (i : Nat) => acc.PlotUnchecked
            (toInt16 ((intersect_rect r0 s.clip).x + i))
            (intersect_rect r0 s.clip).y c rop) s)
        (intersect_rect r0 s.clip)) := by
  have hrect := intersect_props r0 s.clip hr0 hs.2.1
  split
  · exact hs
  · have hsh := plotFoldl_shape s (List.range (intersect_rect r0 s.clip).w.toNat)
      (fun acc i => acc.PlotUnchecked
        (toInt16 ((intersect_rect r0 s.clip).x + (i : Int)))
        (intersect_rect r0 s.clip).y c rop)
      (fun t i => ⟨Plot_size .., Plot_clip .., Plot_dirty ..⟩)
    exact MarkDirty_inv _ _ (SurfInv_of_eq s _ hs hsh.1 hsh.2.1 hsh.2.2) hrect.1

theorem vlineBody_inv (s : Surface) (r0 : Rect) (c : Color) (rop : RasterOp)
    (hs : SurfInv s) (hr0 : ValidRect r0) :
    SurfInv (if rect_empty (intersect_rect r0 s.clip) = true then s
      else Surface.MarkDirty
        ((List.range (intersect_rect r0 s.clip).h.toNat).foldl
          (fun acc (i : Nat) => acc.PlotUnchecked (intersect_rect r0 s.clip).x
            (toInt16 ((intersect_rect r0 s.clip).y + i)) c rop) s)
        (intersect_rect r0 s.clip)) := by
  have hrect := intersect_props r0 s.clip hr0 hs.2.1
  split
  · exact hs
  · have hsh := plotFoldl_shape s (List.range (intersect_rect r0 s.clip).h.toNat)
      (fun acc i => acc.PlotUnchecked (intersect_rect r0 s.clip).x
        (toInt16 ((intersect_rect r0 s.clip).y + (i : Int))) c rop)
      (fun t i => ⟨Plot_size .., Plot_clip .., Plot_dirty ..⟩)
    exact MarkDirty_inv _ _ (SurfInv_of_eq s _ hs hsh.1 hsh.2.1 hsh.2.2) hrect.1

theorem DrawHLine_inv (s : Surface) (p : Point) (l : Int) (c : Color) (rop : RasterOp)
    (hs : SurfInv s) (hy1 : -32768 ≤ p.y) (hy2 : p.y < 32768) :
    SurfInv (s.DrawHLine p l c rop) := by
  unfold Surface.DrawHLine
  dsimp only
  split
  · exact hs
  · by_cases hl : l < 0
    · simp only [hl, if_true]
      split
      · exact hs
      · exact hlineBody_inv s ⟨toInt16 (p.x + l), p.y, toUInt16 (-l), 1⟩ c rop hs
          (validRect_fields _ _ _ _ (toInt16_lb _) (toInt16_ub _) hy1 hy2
            (toUInt16_lb _) (toUInt16_ub _) (by omega) (by omega))
    · simp only [hl, if_false]
      split
      · exact hs
      · exact hlineBody_inv s ⟨toInt16 p.x, p.y, toUInt16 l, 1⟩ c rop hs
          (validRect_fields _ _ _ _ (toInt16_lb _) (toInt16_ub _) hy1 hy2
            (toUInt16_lb _) (toUInt16_ub _) (by omega) (by omega))

theorem DrawVLine_inv (s : Surface) (p : Point) (l : Int) (c : Color) (rop : RasterOp)
    (hs : SurfInv s) (hx1 : -32768 ≤ p.x) (hx2 : p.x < 32768) :
    SurfInv (s.DrawVLine p l c rop) := by
  unfold Surface.DrawVLine
  dsimp only
  split
  · exact hs
  · by_cases hl : l < 0
    · simp only [hl, if_true]
      split
      · exact hs
      · exact vlineBody_inv s ⟨p.x, toInt16 (p.y + l), 1, toUInt16 (-l)⟩ c rop hs
          (validRect_fields _ _ _ _ hx1 hx2 (toInt16_lb _) (toInt16_ub _)
            (by omega) (by omega) (toUInt16_lb _) (toUInt16_ub _))
    · simp only [hl, if_false]
      split
      · exact hs
      · exact vlineBody_inv s ⟨p.x, toInt16 p.y, 1, toUInt16 l⟩ c rop hs
          (validRect_fields _ _ _ _ hx1 hx2 (toInt16_lb _) (toInt16_ub _)
            (by omega) (by omega) (toUInt16_lb _) (toUInt16_ub _))

theorem drawLineGo_inv (X1 Y1 DX DY SX SY : Int) (c : Color) (rop : RasterOp) :
    ∀ (fuel : Nat) (s : Surface) (x0 y0 err : Int), SurfInv s →
      SurfInv (drawLineGo X1 Y1 DX DY SX SY c rop fuel s x0 y0 err) := by
  intro fuel
  induction fuel with
  | zero => intro s x0 y0 err hs; exact hs
  | succ n ih =>
    intro s x0 y0 err hs
    unfold drawLineGo
    dsimp only
    have h1 := DrawPixel_inv s ⟨toInt16 x0, toInt16 y0⟩ c rop hs (validPoint_toInt16 ..)
    split
    · exact h1
    · exact ih _ _ _ _ h1

theorem DrawLine_inv (s : Surface) (p0 p1 : Point) (c : Color) (rop : RasterOp)
    (hs : SurfInv s) : SurfInv (s.DrawLine p0 p1 c rop) :=
  drawLineGo_inv _ _ _ _ _ _ _ _ _ _ _ _ _ hs

theorem DrawRect_inv (s : Surface) (r : Rect) (c : Color) (rop : RasterOp)
    (hs : SurfInv s) (hr : ValidRect r) : SurfInv (s.DrawRect r c rop) := by
  obtain ⟨hx1, hx2, hy1, hy2, hw1, hw2, hh1, hh2⟩ := hr
  unfold Surface.DrawRect
  dsimp only
  split
  · exact hs
  · have h1 := DrawHLine_inv s ⟨r.x, r.y⟩ (toInt16 r.w) c rop hs hy1 hy2
    split
    · split
      · refine DrawVLine_inv _ _ _ _ _ ?_ (toInt16_lb _) (toInt16_ub _)
        refine DrawVLine_inv _ _ _ _ _ ?_ hx1 hx2
        split
        · exact DrawHLine_inv _ _ _ _ _ h1 (toInt16_lb _) (toInt16_ub _)
        · exact h1
      · refine DrawVLine_inv _ _ _ _ _ ?_ hx1 hx2
        split
        · exact DrawHLine_inv _ _ _ _ _ h1 (toInt16_lb _) (toInt16_ub _)
        · exact h1
    · split
      · exact DrawHLine_inv _ _ _ _ _ h1 (toInt16_lb _) (toInt16_ub _)
      · exact h1

theorem FillRect_inv (s : Surface) (r : Rect) (c : Color) (rop : RasterOp)
    (hs : SurfInv s) (hr : ValidRect r) : SurfInv (s.FillRect r c rop) := by
  unfold Surface.FillRect
  dsimp only
  split
  · exact hs
  · exact foldl_preserve SurfInv _
      (fun t i ht => DrawHLine_inv t _ _ _ _ ht (toInt16_lb _) (toInt16_ub _)) _ s hs

theorem drawCircleGo_inv (cx cy : Int) (c : Color) (rop : RasterOp) :
    ∀ (fuel : Nat) (s : Surface) (x y err : Int), SurfInv s →
      SurfInv (drawCircleGo cx cy c rop fuel s x y err) := by
  intro fuel
  induction fuel with
  | zero => intro s x y err hs; exact hs
  | succ n ih =>
    intro s x y err hs
    unfold drawCircleGo
    dsimp only
    split
    · exact hs
    · have step : ∀ (t : Surface) (a b : Int), SurfInv t →
          SurfInv (t.DrawPixel ⟨toInt16 a, toInt16 b⟩ c rop) :=
        fun t a b ht => DrawPixel_inv t _ c rop ht (validPoint_toInt16 a b)
      split
      · exact ih _ _ _ _ (step _ _ _ (step _ _ _ (step _ _ _ (step _ _ _
          (step _ _ _ (step _ _ _ (step _ _ _ (step _ _ _ hs))))))))
      · exact ih _ _ _ _ (step _ _ _ (step _ _ _ (step _ _ _ (step _ _ _
          (step _ _ _ (step _ _ _ (step _ _ _ (step _ _ _ hs))))))))

theorem DrawCircle_inv (s : Surface) (ctr : Point) (rad : Nat) (c : Color)
    (rop : RasterOp) (hs : SurfInv s) : SurfInv (s.DrawCircle ctr rad c rop) :=
  drawCircleGo_inv _ _ _ _ _ _ _ _ _ hs

theorem DrawBitmap_inv (s : Surface) (p : Point) (bits : Option (Nat → Nat))
    (size : Size) (fg : Color) (rop : RasterOp) (hs : SurfInv s) :
    SurfInv (s.DrawBitmap p bits size fg rop) := by
  unfold Surface.DrawBitmap
  split
  · exact hs
  · split
    · exact hs
    · refine foldl_preserve SurfInv _ (fun t y ht => ?_) _ s hs
      refine foldl_preserve SurfInv _ (fun t2 x ht2 => ?_) _ t ht
      dsimp only
      split
      · exact DrawPixel_inv _ _ _ _ ht2 (validPoint_toInt16 ..)
      · exact ht2

theorem drawTextGlyph_inv (font : Font) (glyphs : Nat → Nat) (gi SX SY : Nat)
    (c : Color) (rop : RasterOp) (cx ty : Int) (s : Surface) (hs : SurfInv s)
    (hsx : SX < 65536) (hsy : SY < 65536) :
    SurfInv (drawTextGlyph font glyphs gi SX SY c rop cx ty s) := by
  unfold drawTextGlyph
  dsimp only
  refine foldl_preserve SurfInv _ (fun t gy ht => ?_) _ s hs
  refine foldl_preserve SurfInv _ (fun t2 gx ht2 => ?_) _ t ht
  dsimp only
  split
  · refine FillRect_inv _ _ _ _ ht2 (validRect_fields _ _ _ _ (toInt16_lb _)
      (toInt16_ub _) (toInt16_lb _) (toInt16_ub _) (by omega) (by omega)
      (by omega) (by omega))
  · exact ht2

theorem drawTextGo_inv (font : Font) (glyphs : Nat → Nat) (SX SY : Nat)
    (ADV ASC LH : Int) (blx : Int) (c : Color) (rop : RasterOp)
    (hsx : SX < 65536) (hsy : SY < 65536) :
    ∀ (text : List Nat) (s : Surface) (cx by0 : Int), SurfInv s →
      SurfInv (drawTextGo font glyphs SX SY ADV ASC LH blx c rop s cx by0 text) := by
  intro text
  induction text with
  | nil => intro s cx by0 hs; exact hs
  | cons ch rest ih =>
    intro s cx by0 hs
    unfold drawTextGo
    dsimp only
    split
    · exact ih _ _ _ hs
    · split
      · exact ih _ _ _ (drawTextGlyph_inv _ _ _ _ _ _ _ _ _ _ hs hsx hsy)
      · exact ih _ _ _ hs

theorem DrawText_inv (s : Surface) (p : Point) (text : Option (List Nat))
    (style : TextStyle) (hs : SurfInv s) (hsx : style.scale_x < 256)
    (hsy : style.scale_y < 256) : SurfInv (s.DrawText p text style) := by
  unfold Surface.DrawText
  split
  · split
    · split
      · exact hs
      · exact drawTextGo_inv _ _ _ _ _ _ _ _ _ _
          (by split <;> omega) (by split <;> omega) _ s _ _ hs
    · exact hs
  · exact hs

theorem DrawTextTopLeft_inv (s : Surface) (p : Point) (text : Option (List Nat))
    (style : TextStyle) (hs : SurfInv s) (hsx : style.scale_x < 256)
    (hsy : style.scale_y < 256) : SurfInv (s.DrawTextTopLeft p text style) := by
  unfold Surface.DrawTextTopLeft
  split
  · exact DrawText_inv _ _ _ _ hs hsx hsy
  · exact DrawText_inv _ _ _ _ hs hsx hsy

theorem Bind_inv (s : Surface) (bits : Option (Nat → Nat)) (size : Size)
    (stride : Int) (hz : ValidSize size) : SurfInv (s.Bind bits size stride) := by
  unfold Surface.Bind Surface.ResetClip Surface.ClearDirtyRect
  dsimp only
  refine ⟨hz, ?_, ?_, ?_⟩
  · exact validRect_bounds _ hz
  · exact validRect_fields 0 0 0 0 (by omega) (by omega) (by omega) (by omega)
      (by omega) (by omega) (by omega) (by omega)
  · exact Or.inl (Or.inl (le_refl 0))

theorem Clear_inv (s : Surface) (c : Color) (hs : SurfInv s) : SurfInv (s.Clear c) := by
  unfold Surface.Clear
  cases hb : s.bits with
  | none => exact hs
  | some buf =>
    dsimp only
    split
    · exact hs
    · exact MarkDirty_inv _ _ (SurfInv_of_eq s _ hs rfl rfl rfl)
        (validRect_bounds _ hs.1)

theorem SetClip_inv (s : Surface) (r : Rect) (hs : SurfInv s) (hr : ValidRect r) :
    SurfInv (s.SetClip r) := by
  have hint := intersect_props r (bounds_rect s.size) hr (validRect_bounds _ hs.1)
  exact ⟨hs.1, hint.1, hs.2.2.1, hs.2.2.2⟩

theorem ResetClip_inv (s : Surface) (hs : SurfInv s) : SurfInv (s.ResetClip) :=
  ⟨hs.1, validRect_bounds _ hs.1, hs.2.2.1, hs.2.2.2⟩

theorem ClearDirtyRect_inv (s : Surface) (hs : SurfInv s) :
    SurfInv (s.ClearDirtyRect) := by
  refine ⟨hs.1, hs.2.1, ?_, Or.inl (Or.inl (le_refl 0))⟩
  exact validRect_fields 0 0 0 0 (by omega) (by omega) (by omega) (by omega)
    (by omega) (by omega) (by omega) (by omega)

theorem ApplyOp_inv (s : Surface) (op : SurfOp) (hs : SurfInv s) (hwf : op.wf) :
    SurfInv (s.ApplyOp op) := by
  cases op with
  | bind bits size stride => exact Bind_inv s bits size stride hwf.1
  | clear c => exact Clear_inv s c hs
  | setClip r => exact SetClip_inv s r hs hwf
  | resetClip => exact ResetClip_inv s hs
  | drawPixel p c rop => exact DrawPixel_inv s p c rop hs hwf
  | drawHLine p l c rop => exact DrawHLine_inv s p l c rop hs hwf.1.2.2.1 hwf.1.2.2.2
  | drawVLine p l c rop => exact DrawVLine_inv s p l c rop hs hwf.1.1 hwf.1.2.1
  | drawLine p0 p1 c rop => exact DrawLine_inv s p0 p1 c rop hs
  | drawRect r c rop => exact DrawRect_inv s r c rop hs hwf
  | fillRect r c rop => exact FillRect_inv s r c rop hs hwf
  | drawCircle ctr rad c rop => exact DrawCircle_inv s ctr rad c rop hs
  | drawBitmap p bits size fg rop => exact DrawBitmap_inv s p bits size fg rop hs
  | drawText p text style => exact DrawText_inv s p text style hs hwf.2.1 hwf.2.2
  | drawTextTopLeft p text style =>
      exact DrawTextTopLeft_inv s p text style hs hwf.2.1 hwf.2.2
  | addDirtyRect r => exact MarkDirty_inv s r hs hwf
  | clearDirtyRect => exact ClearDirtyRect_inv s hs

theorem SurfInv_init : SurfInv Surface.init := by
  unfold SurfInv Surface.init ValidSize ValidRect rectSubset bounds_rect
  dsimp only
  omega

theorem applyAll_inv : ∀ (ops : List SurfOp) (s : Surface), SurfInv s →
    (∀ op ∈ ops, op.wf) → SurfInv (ops.foldl Surface.ApplyOp s) := by
  intro ops
  induction ops with
  | nil => intro s hs _; exact hs
  | cons op rest ih =>
    intro s hs hwf
    exact ih _ (ApplyOp_inv s op hs (hwf op (List.mem_cons_self op rest)))
      (fun o ho => hwf o (List.mem_cons_of_mem op ho))

theorem setFbAt_proj (s : PresentState) (i : Nat) (b : Nat → Nat) :
    (Present.setFbAt s i b).cfg = s.cfg ∧ (Present.setFbAt s i b).caps = s.caps ∧
    (Present.setFbAt s i b).surface = s.surface ∧
    (Present.setFbAt s i b).draw_buffer_index = s.draw_buffer_index ∧
    (Present.setFbAt s i b).transfer_in_progress = s.transfer_in_progress ∧
    (Present.setFbAt s i b).initialized = s.initialized := by
  unfold Present.setFbAt
  split <;> exact ⟨rfl, rfl, rfl, rfl, rfl, rfl⟩

theorem copyRegion_proj (s : PresentState) (i j : Nat) (r : Rect) :
    (Present.CopyRegionBetweenBuffers s i j r).cfg = s.cfg ∧
    (Present.CopyRegionBetweenBuffers s i j r).caps = s.caps ∧
    (Present.CopyRegionBetweenBuffers s i j r).surface = s.surface ∧
    (Present.CopyRegionBetweenBuffers s i j r).draw_buffer_index = s.draw_buffer_index ∧
    (Present.CopyRegionBetweenBuffers s i j r).transfer_in_progress =
      s.transfer_in_progress ∧
    (Present.CopyRegionBetweenBuffers s i j r).initialized = s.initialized := by
  unfold Present.CopyRegionBetweenBuffers
  dsimp only
  split
  · exact ⟨rfl, rfl, rfl, rfl, rfl, rfl⟩
  · split
    · exact ⟨rfl, rfl, rfl, rfl, rfl, rfl⟩
    · exact setFbAt_proj ..

theorem swap_proj (s : PresentState) (r : Rect) :
    (Present.SwapToNextDrawBuffer s r).cfg = s.cfg ∧
    (Present.SwapToNextDrawBuffer s r).caps = s.caps ∧
    (Present.SwapToNextDrawBuffer s r).transfer_in_progress = s.transfer_in_progress ∧
    (Present.SwapToNextDrawBuffer s r).initialized = s.initialized := by
  unfold Present.SwapToNextDrawBuffer Present.BindDrawSurface
  dsimp only
  have h := copyRegion_proj s s.draw_buffer_index (s.draw_buffer_index ^^^ 1) r
  exact ⟨h.1, h.2.1, h.2.2.2.2.1, h.2.2.2.2.2⟩

theorem presentFrame_resolved (B : BackendModel) (s : PresentState) (m : PresentMode)
    (rm : Rect × PresentMode) (hinit : s.initialized = true)
    (hres : Present.ResolvePresent s m = some rm) :
    Present.PresentFrame B s m = Present.SubmitFrame B s rm.1 rm.2 := by
  obtain ⟨r, md⟩ := rm
  unfold Present.PresentFrame
  rw [hinit, hres]
  rfl

theorem presentFrame_unresolved (B : BackendModel) (s : PresentState) (m : PresentMode)
    (hinit : s.initialized = true)
    (hres : Present.ResolvePresent s m = none) :
    Present.PresentFrame B s m = (ErrorCode.OK, s, []) := by
  unfold Present.PresentFrame
  rw [hinit, hres]
  rfl

theorem submit_async_ok (B : BackendModel) (s : PresentState) (region : Rect)
    (mode : PresentMode) (hasync : s.caps.async_present = true)
    (hidle : s.transfer_in_progress = false)
    (hok : ∀ f md, B.presentFn f md = ErrorCode.OK) :
    Present.SubmitFrame B s region mode =
      (ErrorCode.OK,
        Present.SwapToNextDrawBuffer { s with transfer_in_progress := true } region,
        [(⟨Present.fbAt s s.draw_buffer_index, s.cfg.width, s.cfg.height,
          Present.StrideBytes s.cfg, region⟩, mode)]) := by
  unfold Present.SubmitFrame
  dsimp only
  rw [hasync, hidle, hok]
  rfl

theorem submit_busy (B : BackendModel) (s : PresentState) (region : Rect)
    (mode : PresentMode) (hasync : s.caps.async_present = true)
    (hbusy : s.transfer_in_progress = true) :
    Present.SubmitFrame B s region mode = (ErrorCode.BUSY, s, []) := by
  unfold Present.SubmitFrame
  dsimp only
  rw [hasync, hbusy]
  rfl

theorem submit_fail (B : BackendModel) (s : PresentState) (region : Rect)
    (mode : PresentMode) (e : ErrorCode) (hbp : ∀ f md, B.presentFn f md = e)
    (he : e ≠ ErrorCode.OK) :
    (Present.SubmitFrame B s region mode).2.1 = s ∧
    ((Present.SubmitFrame B s region mode).2.2 ≠ [] →
      (Present.SubmitFrame B s region mode).1 = e) := by
  unfold Present.SubmitFrame
  dsimp only
  split
  · rw [hbp, if_neg he]
    exact ⟨rfl, fun _ => rfl⟩
  · split
    · exact ⟨rfl, fun h => absurd rfl h⟩
    · rw [hbp, if_neg he]
      exact ⟨rfl, fun _ => rfl⟩

theorem resolve_without_pu (s : PresentState) (m : PresentMode)
    (hpu : s.caps.partial_update = false) :
    Present.ResolvePresent s m = some (Present.FullRect s.cfg, PresentMode.FULL) := by
  unfold Present.ResolvePresent
  cases m <;> simp [hpu]

theorem submit_trace (B : BackendModel) (s : PresentState) (region : Rect)
    (mode : PresentMode) :
    ∀ c ∈ (Present.SubmitFrame B s region mode).2.2,
      c.1.dirty = region ∧ c.2 = mode := by
  unfold Present.SubmitFrame
  dsimp only
  intro c hc
  split at hc
  · split at hc <;>
      (simp only [List.mem_singleton] at hc; rw [hc]; exact ⟨rfl, rfl⟩)
  · split at hc
    · simp at hc
    · split at hc <;>
        (simp only [List.mem_singleton] at hc; rw [hc]; exact ⟨rfl, rfl⟩)

theorem presentFrameRect_without_pu (B : BackendModel) (s : PresentState)
    (r : Rect) (hinit : s.initialized = true)
    (hpu : s.caps.partial_update = false) :
    Present.PresentFrameRect B s r =
      (if rect_empty (Present.ClipToFrame r s.cfg) = true then (ErrorCode.ARG_ERR, s, [])
        else Present.SubmitFrame B s (Present.FullRect s.cfg) PresentMode.FULL) := by
  unfold Present.PresentFrameRect
  rw [hinit, hpu]
  rfl

/-- Backend with partial_update and async_present whose operations always
succeed. -/
def backendOkA : BackendModel :=
  ⟨⟨true, false, false, true⟩, fun _ _ => ErrorCode.OK, fun _ => ErrorCode.OK,
    fun _ => ErrorCode.OK⟩

/-- Initialized Present state over an 8x8 frame, bound to buffer 0, whole
frame dirty, no transfer in flight: the state right after a successful
construction on an async-capable partial-update backend. -/
def presentStateA : PresentState :=
  { cfg := ⟨8, 8, Rotation.R0, BufferMode.FULL, 8, true⟩
    caps := ⟨true, false, false, true⟩
    fb0 := fun _ => 0
    fb1 := fun _ => 0
    surface := (Surface.Bind Surface.init (some (fun _ => 0)) ⟨8, 8⟩ 1).AddDirtyRect
      ⟨0, 0, 8, 8⟩
    draw_buffer_index := 0
    transfer_in_progress := false
    initialized := true
    in_frame := false }

/-- Backend with no optional capabilities that always succeeds. -/
def backendPlainB : BackendModel :=
  ⟨⟨false, false, false, false⟩, fun _ _ => ErrorCode.OK,
    fun _ => ErrorCode.NOT_SUPPORT, fun _ => ErrorCode.NOT_SUPPORT⟩

/-- Initialized Present state whose cached capabilities are all absent. -/
def presentStateB : PresentState :=
  { presentStateA with caps := ⟨false, false, false, false⟩ }

/-- Backend whose Present entry always fails with SIZE_ERR. -/
def backendFailC : BackendModel :=
  ⟨⟨false, false, false, false⟩, fun _ _ => ErrorCode.SIZE_ERR,
    fun _ => ErrorCode.OK, fun _ => ErrorCode.OK⟩

/-- C2 counterexample: on an initialized Present, PresentFrame with an
explicit rect whose clip against the frame bounds is empty returns ARG_ERR,
not OK as the claim states. -/
theorem C2_counterexample :
    (Present.PresentFrameRect backendOkA presentStateA ⟨0, 0, 0, 0⟩).1 =
      ErrorCode.ARG_ERR ∧
    ErrorCode.ARG_ERR ≠ ErrorCode.OK := by
  exact ⟨by decide, by decide⟩

/-- C2 (amended): on an initialized Present, an explicit rect that clips to
empty is rejected with ARG_ERR without touching the backend or the state,
while a DIRTY-mode PresentFrame on a partial-update backend whose
accumulated dirty rect clips to empty returns OK without submitting
anything and without changing the state. -/
theorem C2_theorem (B : BackendModel) (s : PresentState)
    (hinit : s.initialized = true) :
    (∀ r, rect_empty (Present.ClipToFrame r s.cfg) = true →
      Present.PresentFrameRect B s r = (ErrorCode.ARG_ERR, s, [])) ∧
    (s.caps.partial_update = true →
      rect_empty (Present.ClipToFrame s.surface.GetDirtyRect s.cfg) = true →
      Present.PresentFrame B s PresentMode.DIRTY = (ErrorCode.OK, s, [])) := by
  constructor
  · intro r hr
    unfold Present.PresentFrameRect
    rw [hinit]
    dsimp only
    rw [hr]
    rfl
  · intro hpu hdirty
    apply presentFrame_unresolved B s _ hinit
    simp [Present.ResolvePresent, hpu, hdirty]

/-- C2 witness: the amended statement applied to a concrete initialized
state and a concrete off-frame rect. -/
theorem C2_witness :
    presentStateA.initialized = true ∧
    rect_empty (Present.ClipToFrame ⟨20, 20, 3, 3⟩ presentStateA.cfg) = true ∧
    Present.PresentFrameRect backendOkA presentStateA ⟨20, 20, 3, 3⟩ =
      (ErrorCode.ARG_ERR, presentStateA, []) :=
  ⟨rfl, by decide,
    (C2_theorem backendOkA presentStateA rfl).1 ⟨20, 20, 3, 3⟩ (by decide)⟩

/-- C3 counterexample: on an initialized Present over a backend with no
capabilities at all, SetRotation still returns OK (there is no rotation
capability flag and no backend pass-through), contradicting the claim that
it is capability-gated and returns NOT_SUPPORT when the capability is
absent. -/
theorem C3_counterexample :
    (Present.SetRotation presentStateB Rotation.R90).1 = ErrorCode.OK ∧
    ErrorCode.OK ≠ ErrorCode.NOT_SUPPORT := by
  exact ⟨by decide, by decide⟩

/-- C3 (amended): SetPowerSave and SetContrast are pass-throughs to the
backend gated by the corresponding cached capability flag, returning
NOT_SUPPORT when that capability is absent; SetRotation is not gated by any
capability and performs no backend call: it stores the rotation, marks the
full frame dirty and returns OK. -/
theorem C3_theorem (B : BackendModel) (s : PresentState)
    (hinit : s.initialized = true) :
    (∀ e, s.caps.power_save = false →
      Present.SetPowerSave B s e = ErrorCode.NOT_SUPPORT) ∧
    (∀ e, s.caps.power_save = true →
      Present.SetPowerSave B s e = B.setPowerSaveFn e) ∧
    (∀ v, s.caps.contrast = false →
      Present.SetContrast B s v = ErrorCode.NOT_SUPPORT) ∧
    (∀ v, s.caps.contrast = true →
      Present.SetContrast B s v = B.setContrastFn v) ∧
    (∀ rot, Present.SetRotation s rot =
      (ErrorCode.OK, { s with
        cfg := { s.cfg with rotation := rot }
        surface := s.surface.AddDirtyRect
          (Present.FullRect { s.cfg with rotation := rot }) })) := by
  refine ⟨?_, ?_, ?_, ?_, ?_⟩
  · intro e hc
    unfold Present.SetPowerSave
    rw [hinit, hc]
    rfl
  · intro e hc
    unfold Present.SetPowerSave
    rw [hinit, hc]
    rfl
  · intro v hc
    unfold Present.SetContrast
    rw [hinit, hc]
    rfl
  · intro v hc
    unfold Present.SetContrast
    rw [hinit, hc]
    rfl
  · intro rot
    unfold Present.SetRotation
    rw [hinit]
    rfl

/-- C3 witness: the amended statement applied to the capability-free
state. -/
theorem C3_witness :
    presentStateB.initialized = true ∧ presentStateB.caps.power_save = false ∧
    Present.SetPowerSave backendPlainB presentStateB true = ErrorCode.NOT_SUPPORT :=
  ⟨rfl, rfl, (C3_theorem backendPlainB presentStateB rfl).1 true rfl⟩

/-- C4: the accumulated dirty rect of a Surface is always contained in the
frame bounds of the currently bound size: the invariant holds on every state
reached from the initial Surface by a sequence of public operations with
type-correct arguments, and every single operation preserves it. -/
theorem C4_theorem :
    (∀ (s : Surface) (op : SurfOp), SurfInv s → op.wf → SurfInv (s.ApplyOp op)) ∧
    (∀ ops : List SurfOp, (∀ op ∈ ops, op.wf) →
      rectSubset ((ops.foldl Surface.ApplyOp Surface.init).GetDirtyRect)
        (bounds_rect (ops.foldl Surface.ApplyOp Surface.init).size)) :=
  ⟨fun s op hs hw => ApplyOp_inv s op hs hw,
   fun ops hw => (applyAll_inv ops Surface.init SurfInv_init hw).2.2.2⟩

/-- Concrete mixed operation sequence for the C4 witness. -/
def c4ops : List SurfOp :=
  [SurfOp.bind (some (fun _ => 0)) ⟨8, 8⟩ 0,
   SurfOp.clear Color.WHITE,
   SurfOp.setClip ⟨1, 1, 4, 4⟩,
   SurfOp.drawPixel ⟨2, 2⟩ Color.WHITE RasterOp.COPY,
   SurfOp.drawHLine ⟨7, 3⟩ (-5) Color.BLACK RasterOp.XOR,
   SurfOp.drawRect ⟨1, 1, 3, 3⟩ Color.WHITE RasterOp.OR,
   SurfOp.addDirtyRect ⟨-5, -5, 100, 100⟩]

/-- C4 witness: the dirty-rect invariant evaluated on a concrete operation
sequence. -/
theorem C4_witness :
    (∀ op ∈ c4ops, op.wf) ∧
    rectSubset ((c4ops.foldl Surface.ApplyOp Surface.init).GetDirtyRect)
      (bounds_rect (c4ops.foldl Surface.ApplyOp Surface.init).size) := by
  have hwf : ∀ op ∈ c4ops, op.wf := by
    intro op hop
    simp only [c4ops, List.mem_cons, List.not_mem_nil, or_false] at hop
    rcases hop with rfl | rfl | rfl | rfl | rfl | rfl | rfl <;>
      simp only [SurfOp.wf, ValidRect, ValidPoint, ValidSize] <;>
      first
      | trivial
      | (dsimp only; omega)
  exact ⟨hwf, C4_theorem.2 c4ops hwf⟩

/-- C5: on an initialized Present whose backend lacks partial_update, every
FrameView handed to the backend by either PresentFrame overload carries the
full frame rect as its region, with mode FULL. -/
theorem C5_theorem (B : BackendModel) (s : PresentState)
    (hinit : s.initialized = true) (hpu : s.caps.partial_update = false) :
    (∀ m, ∀ c ∈ (Present.PresentFrame B s m).2.2,
      c.1.dirty = Present.FullRect s.cfg ∧ c.2 = PresentMode.FULL) ∧
    (∀ r, ∀ c ∈ (Present.PresentFrameRect B s r).2.2,
      c.1.dirty = Present.FullRect s.cfg ∧ c.2 = PresentMode.FULL) := by
  constructor
  · intro m c hc
    rw [presentFrame_resolved B s m _ hinit (resolve_without_pu s m hpu)] at hc
    exact submit_trace B s _ _ c hc
  · intro r c hc
    rw [presentFrameRect_without_pu B s r hinit hpu] at hc
    split at hc
    · simp at hc
    · exact submit_trace B s _ _ c hc

/-- C5 witness: the property applied to a concrete AUTO submission on a
backend without partial_update. -/
theorem C5_witness :
    presentStateB.initialized = true ∧
    presentStateB.caps.partial_update = false ∧
    (∀ c ∈ (Present.PresentFrame backendPlainB presentStateB PresentMode.AUTO).2.2,
      c.1.dirty = Present.FullRect presentStateB.cfg ∧ c.2 = PresentMode.FULL) :=
  ⟨rfl, rfl, (C5_theorem backendPlainB presentStateB rfl rfl).1 PresentMode.AUTO⟩

/-- C6 counterexample: the code's rect_empty holds for a rect with zero
width and nonzero height, which the claim says is not empty. -/
theorem C6_counterexample : rect_empty ⟨0, 0, 0, 5⟩ = true := by decide

/-- C6 (amended): a rect is empty exactly when its width is zero or its
height is zero, not only when both are. -/
theorem C6_theorem (r : Rect) : rect_empty r = true ↔ (r.w = 0 ∨ r.h = 0) := by
  simp [rect_empty]

/-- C8: DrawPixel at a point outside the active clip rect returns the
Surface completely unchanged: every byte of the pixel buffer and the dirty
rect are exactly as they were. -/
theorem C8_theorem (s : Surface) (p : Point) (c : Color) (rop : RasterOp)
    (h : s.InClip p = false) : s.DrawPixel p c rop = s := by
  unfold Surface.DrawPixel
  rw [h]
  exact if_pos (Or.inr rfl)

/-- Concrete clipped surface for the C8 witness. -/
def surfaceW8 : Surface :=
  (Surface.Bind Surface.init (some (fun _ => 0)) ⟨8, 8⟩ 0).SetClip ⟨0, 0, 4, 4⟩

/-- C8 witness: a concrete out-of-clip DrawPixel is the identity. -/
theorem C8_witness :
    surfaceW8.InClip ⟨6, 1⟩ = false ∧
    surfaceW8.DrawPixel ⟨6, 1⟩ Color.WHITE RasterOp.COPY = surfaceW8 :=
  ⟨by decide, C8_theorem surfaceW8 ⟨6, 1⟩ Color.WHITE RasterOp.COPY (by decide)⟩

/-- C10: when the backend's Present entry fails, both PresentFrame overloads
return with the PresentState exactly unchanged (dirty rect kept, draw index
kept, in-flight flag kept, Surface binding and both framebuffers kept), and
whenever the backend was actually called the failing status is propagated. -/
theorem C10_theorem (B : BackendModel) (s : PresentState) (e : ErrorCode)
    (hbp : ∀ f md, B.presentFn f md = e) (he : e ≠ ErrorCode.OK) :
    (∀ m, (Present.PresentFrame B s m).2.1 = s ∧
      ((Present.PresentFrame B s m).2.2 ≠ [] → (Present.PresentFrame B s m).1 = e)) ∧
    (∀ r, (Present.PresentFrameRect B s r).2.1 = s ∧
      ((Present.PresentFrameRect B s r).2.2 ≠ [] →
        (Present.PresentFrameRect B s r).1 = e)) := by
  constructor
  · intro m
    unfold Present.PresentFrame
    split
    · exact ⟨rfl, fun h => absurd rfl h⟩
    · cases hres : Present.ResolvePresent s m with
      | none => exact ⟨rfl, fun h => absurd rfl h⟩
      | some rm => exact submit_fail B s rm.1 rm.2 e hbp he
  · intro r
    unfold Present.PresentFrameRect
    split
    · exact ⟨rfl, fun h => absurd rfl h⟩
    · dsimp only
      split
      · exact ⟨rfl, fun h => absurd rfl h⟩
      · exact submit_fail B s _ _ e hbp he

/-- C10 witness: a concrete failing backend leaves a concrete state
untouched and propagates SIZE_ERR. -/
theorem C10_witness :
    (∀ f md, backendFailC.presentFn f md = ErrorCode.SIZE_ERR) ∧
    ErrorCode.SIZE_ERR ≠ ErrorCode.OK ∧
    ((Present.PresentFrame backendFailC presentStateB PresentMode.FULL).2.1 =
        presentStateB ∧
      ((Present.PresentFrame backendFailC presentStateB PresentMode.FULL).2.2 ≠ [] →
        (Present.PresentFrame backendFailC presentStateB PresentMode.FULL).1 =
          ErrorCode.SIZE_ERR)) :=
  ⟨fun f md => rfl, by decide,
    (C10_theorem backendFailC presentStateB ErrorCode.SIZE_ERR (fun f md => rfl)
      (by decide)).1 PresentMode.FULL⟩

/-- C1 counterexample: on an async-capable partial-update backend, after a
successful FULL submission (transfer in flight), a further PresentFrame in
DIRTY mode finds the freshly swapped buffer's dirty rect empty and returns
OK without calling the backend, not BUSY as the claim requires of any
further submission. -/
theorem C1_counterexample :
    (Present.PresentFrame backendOkA presentStateA PresentMode.FULL).1 =
      ErrorCode.OK ∧
    Present.IsTransferInProgress
      (Present.PresentFrame backendOkA presentStateA PresentMode.FULL).2.1 = true ∧
    (Present.PresentFrame backendOkA
      (Present.PresentFrame backendOkA presentStateA PresentMode.FULL).2.1
      PresentMode.DIRTY).1 = ErrorCode.OK ∧
    (Present.PresentFrame backendOkA
      (Present.PresentFrame backendOkA presentStateA PresentMode.FULL).2.1
      PresentMode.DIRTY).2.2.length = 0 ∧
    ErrorCode.OK ≠ ErrorCode.BUSY := by
  exact ⟨by decide, by decide, by decide, by decide, by decide⟩

/-- C1 (amended): on an initialized Present over an async-capable backend
with no transfer in flight, a PresentFrame whose region resolution yields a
transfer and whose backend Present call returns OK leaves
IsTransferInProgress true; while the transfer is in flight, any further
PresentFrame that resolves to a transfer returns BUSY without calling the
backend, while one whose resolution is empty returns OK without calling the
backend (the correction); after OnTransferDone returns OK,
IsTransferInProgress is false and the next resolving PresentFrame whose
backend Present call returns OK returns OK again. -/
theorem C1_theorem (B : BackendModel) (s : PresentState) (m : PresentMode)
    (rm : Rect × PresentMode) (hinit : s.initialized = true)
    (hasync : s.caps.async_present = true)
    (hidle : s.transfer_in_progress = false)
    (hres : Present.ResolvePresent s m = some rm)
    (hok : ∀ f md, B.presentFn f md = ErrorCode.OK) :
    (Present.PresentFrame B s m).1 = ErrorCode.OK ∧
    Present.IsTransferInProgress (Present.PresentFrame B s m).2.1 = true ∧
    (∀ m2 rm2,
      Present.ResolvePresent (Present.PresentFrame B s m).2.1 m2 = some rm2 →
      Present.PresentFrame B (Present.PresentFrame B s m).2.1 m2 =
        (ErrorCode.BUSY, (Present.PresentFrame B s m).2.1, [])) ∧
    (∀ m2,
      Present.ResolvePresent (Present.PresentFrame B s m).2.1 m2 = none →
      Present.PresentFrame B (Present.PresentFrame B s m).2.1 m2 =
        (ErrorCode.OK, (Present.PresentFrame B s m).2.1, [])) ∧
    (Present.OnTransferDone (Present.PresentFrame B s m).2.1).1 = ErrorCode.OK ∧
    Present.IsTransferInProgress
      (Present.OnTransferDone (Present.PresentFrame B s m).2.1).2 = false ∧
    (∀ m3 rm3,
      Present.ResolvePresent
        (Present.OnTransferDone (Present.PresentFrame B s m).2.1).2 m3 = some rm3 →
      (Present.PresentFrame B
        (Present.OnTransferDone (Present.PresentFrame B s m).2.1).2 m3).1 =
        ErrorCode.OK) := by
  obtain ⟨r, md⟩ := rm
  have hpf : Present.PresentFrame B s m = (ErrorCode.OK,
      Present.SwapToNextDrawBuffer { s with transfer_in_progress := true } r,
      [(⟨Present.fbAt s s.draw_buffer_index, s.cfg.width, s.cfg.height,
        Present.StrideBytes s.cfg, r⟩, md)]) := by
    rw [presentFrame_resolved B s m ⟨r, md⟩ hinit hres]
    exact submit_async_ok B s r md hasync hidle hok
  rw [hpf]
  dsimp only
  have hsw := swap_proj { s with transfer_in_progress := true } r
  have hcap : (Present.SwapToNextDrawBuffer
      { s with transfer_in_progress := true } r).caps.async_present = true := by
    rw [hsw.2.1]; exact hasync
  have hini : (Present.SwapToNextDrawBuffer
      { s with transfer_in_progress := true } r).initialized = true := by
    rw [hsw.2.2.2]; exact hinit
  have htip : (Present.SwapToNextDrawBuffer
      { s with transfer_in_progress := true } r).transfer_in_progress = true :=
    hsw.2.2.1
  have hot : Present.OnTransferDone (Present.SwapToNextDrawBuffer
      { s with transfer_in_progress := true } r) =
      (ErrorCode.OK, { Present.SwapToNextDrawBuffer
        { s with transfer_in_progress := true } r with
          transfer_in_progress := false }) := by
    unfold Present.OnTransferDone
    rw [if_neg (by rw [hini]; exact fun h => nomatch h),
      if_neg (by rw [hcap]; exact fun h => nomatch h), if_pos htip]
  refine ⟨rfl, htip, ?_, ?_, ?_, ?_, ?_⟩
  · intro m2 rm2 h2
    rw [presentFrame_resolved B _ m2 rm2 hini h2]
    exact submit_busy B _ rm2.1 rm2.2 hcap htip
  · intro m2 h2
    exact presentFrame_unresolved B _ m2 hini h2
  · rw [hot]
  · rw [hot]
    exact rfl
  · intro m3 rm3 h3
    rw [hot] at h3
    rw [hot]
    have hini2 : ({ Present.SwapToNextDrawBuffer
        { s with transfer_in_progress := true } r with
          transfer_in_progress := false }).initialized = true := hini
    have hcap2 : ({ Present.SwapToNextDrawBuffer
        { s with transfer_in_progress := true } r with
          transfer_in_progress := false }).caps.async_present = true := hcap
    rw [presentFrame_resolved B _ m3 rm3 hini2 h3]
    rw [submit_async_ok B _ rm3.1 rm3.2 hcap2 rfl hok]

/-- C1 witness: the amended scenario run on a concrete async backend and
initialized state, for a FULL submission. -/
theorem C1_witness :
    presentStateA.initialized = true ∧
    presentStateA.caps.async_present = true ∧
    presentStateA.transfer_in_progress = false ∧
    Present.ResolvePresent presentStateA PresentMode.FULL =
      some (Present.FullRect presentStateA.cfg, PresentMode.FULL) ∧
    (Present.PresentFrame backendOkA presentStateA PresentMode.FULL).1 =
      ErrorCode.OK ∧
    Present.IsTransferInProgress
      (Present.PresentFrame backendOkA presentStateA PresentMode.FULL).2.1 = true :=
  ⟨rfl, rfl, rfl, by decide,
    (C1_theorem backendOkA presentStateA PresentMode.FULL
      (Present.FullRect presentStateA.cfg, PresentMode.FULL) rfl rfl rfl (by decide)
      (fun f md => rfl)).1,
    (C1_theorem backendOkA presentStateA PresentMode.FULL
      (Present.FullRect presentStateA.cfg, PresentMode.FULL) rfl rfl rfl (by decide)
      (fun f md => rfl)).2.1⟩

/-- Glyph table with a single set bit (top-left pixel of the glyph). -/
def glyphsC7 : Nat → Nat := fun i => if i = 0 then 128 else 0

/-- Font with ascent 0, descent 5 and glyph height 10, exercising the
effective-ascent substitution. -/
def fontC7 : Font := ⟨1, 10, 65, 65, 0, 5, some glyphsC7⟩

/-- Unscaled white-on-black text style over fontC7. -/
def styleC7 : TextStyle := ⟨some fontC7, Color.WHITE, RasterOp.COPY, 1, 1, 0⟩

/-- Blank 8x32 surface for the C7 counterexample. -/
def surfaceC7 : Surface := Surface.Bind Surface.init (some (fun _ => 0)) ⟨8, 32⟩ 0

/-- C7 counterexample: with ascent 0, descent 5, glyph_height 10 the code
advances the baseline by (glyph_height + descent) * scale_y + 1 = 16 on a
newline, not by (ascent + descent) * scale_y + 1 = 6 as the claim computes:
drawing a newline then a glyph from baseline y=10 puts the glyph's top pixel
at row 16, and row 6 stays blank. -/
theorem C7_counterexample :
    Surface.getPixel (surfaceC7.DrawText ⟨0, 10⟩ (some [10, 65]) styleC7) ⟨0, 16⟩ =
      true ∧
    Surface.getPixel (surfaceC7.DrawText ⟨0, 10⟩ (some [10, 65]) styleC7) ⟨0, 6⟩ =
      false ∧
    ((fontC7.ascent : Int) + fontC7.descent) * 1 + 1 = 6 ∧
    font_line_height fontC7 * 1 + 1 = 16 := by
  exact ⟨by decide, by decide, by decide, by decide⟩

/-- C7 (amended): in DrawText's character loop a newline byte resets the
cursor x to the left margin and advances the baseline y by exactly
((ascent if nonzero, else glyph_height) + descent) * scale_y + 1 — the
effective ascent substitutes glyph_height whenever ascent is zero, even if
descent is nonzero; a byte outside [first_char, last_char] draws nothing and
still advances the cursor x by exactly the advance glyph_width * scale_x +
letter_spacing that DrawText computes. -/
theorem C7_theorem (font : Font) (glyphs : Nat → Nat) (style : TextStyle)
    (SX SY : Nat) (ADV : Int) (blx : Int) (c : Color) (rop : RasterOp)
    (s : Surface) (cx by0 : Int) (ch : Nat) (rest : List Nat)
    (hgh : 0 < font.glyph_height)
    (hsf : style.font = some font) (hgl : font.glyphs = some glyphs)
    (hfw : font.glyph_width ≠ 0)
    (hlc : font.first_char ≤ font.last_char) :
    (font_line_height font =
      (if font.ascent = 0 then (font.glyph_height : Int) else font.ascent) +
        font.descent) ∧
    (drawTextGo font glyphs SX SY ADV (font_ascent font) (font_line_height font)
        blx c rop s cx by0 (10 :: rest) =
      drawTextGo font glyphs SX SY ADV (font_ascent font) (font_line_height font)
        blx c rop s blx
        (by0 + ((if font.ascent = 0 then (font.glyph_height : Int) else font.ascent) +
          font.descent) * SY + 1) rest) ∧
    (ch ≠ 10 → (ch < font.first_char ∨ font.last_char < ch) →
      drawTextGo font glyphs SX SY ADV (font_ascent font) (font_line_height font)
        blx c rop s cx by0 (ch :: rest) =
      drawTextGo font glyphs SX SY ADV (font_ascent font) (font_line_height font)
        blx c rop s (cx + ADV) by0 rest) ∧
    (∀ (p : Point) (txt : List Nat),
      s.DrawText p (some txt) style =
        drawTextGo font glyphs (if style.scale_x = 0 then 1 else style.scale_x)
          (if style.scale_y = 0 then 1 else style.scale_y)
          ((font.glyph_width : Int) *
              (((if style.scale_x = 0 then 1 else style.scale_x) : Nat) : Int) +
            style.letter_spacing)
          (font_ascent font) (font_line_height font) p.x style.color style.raster_op
          s p.x p.y (txt.takeWhile (fun c0 => c0 ≠ 0))) := by
  have h1 : font_line_height font =
      (if font.ascent = 0 then (font.glyph_height : Int) else font.ascent) +
        font.descent := by
    unfold font_line_height font_ascent font_descent
    dsimp only
    split_ifs <;> omega
  refine ⟨h1, ?_, ?_, ?_⟩
  · rw [show drawTextGo font glyphs SX SY ADV (font_ascent font)
        (font_line_height font) blx c rop s cx by0 (10 :: rest) =
      drawTextGo font glyphs SX SY ADV (font_ascent font) (font_line_height font)
        blx c rop s blx (by0 + font_line_height font * (SY : Int) + 1) rest from rfl,
      h1]
  · intro hch hout
    simp only [drawTextGo]
    rw [if_neg hch]
    rw [if_neg (show ¬(font.first_char ≤ ch ∧ ch ≤ font.last_char) by omega)]
  · intro p txt
    unfold Surface.DrawText
    rw [hsf]
    dsimp only
    rw [hgl]
    dsimp only
    rw [if_neg (show ¬(font.glyph_width = 0 ∨ font.glyph_height = 0 ∨
      font.last_char < font.first_char) by omega)]

/-- C7 witness: the amended statement applied to fontC7 (ascent 0, descent
5, glyph height 10): the newline step from baseline 10 lands on baseline
10 + (10 + 5) * 1 + 1. -/
theorem C7_witness :
    0 < fontC7.glyph_height ∧ styleC7.font = some fontC7 ∧
    fontC7.glyphs = some glyphsC7 ∧ fontC7.glyph_width ≠ 0 ∧
    fontC7.first_char ≤ fontC7.last_char ∧
    font_line_height fontC7 =
      (if fontC7.ascent = 0 then (fontC7.glyph_height : Int) else fontC7.ascent) +
        fontC7.descent ∧
    drawTextGo fontC7 glyphsC7 1 1 1 (font_ascent fontC7) (font_line_height fontC7)
        0 Color.WHITE RasterOp.COPY surfaceC7 0 10 (10 :: [65]) =
      drawTextGo fontC7 glyphsC7 1 1 1 (font_ascent fontC7) (font_line_height fontC7)
        0 Color.WHITE RasterOp.COPY surfaceC7 0
        (10 + ((if fontC7.ascent = 0 then (fontC7.glyph_height : Int)
            else fontC7.ascent) + fontC7.descent) * 1 + 1) [65] :=
  ⟨by decide, rfl, rfl, by decide, by decide,
    (C7_theorem fontC7 glyphsC7 styleC7 1 1 1 0 Color.WHITE RasterOp.COPY surfaceC7
      0 10 0 [65] (by decide) rfl rfl (by decide) (by decide)).1,
    (C7_theorem fontC7 glyphsC7 styleC7 1 1 1 0 Color.WHITE RasterOp.COPY surfaceC7
      0 10 0 [65] (by decide) rfl rfl (by decide) (by decide)).2.1⟩

theorem rectSubset_trans (a b c : Rect) (hab : rectSubset a b) (hbc : rectSubset b c) :
    rectSubset a c := by
  unfold rectSubset at *
  rcases hab with h | h
  · exact Or.inl h
  · rcases hbc with h2 | h2
    · exact Or.inl (by omega)
    · exact Or.inr (by omega)

theorem row_byte_ne (a b c d T : Nat) (hb : b < T) (hd : d < T) (hne : a ≠ c) :
    a * T + b ≠ c * T + d := by
  intro h
  apply hne
  have hT : 0 < T := Nat.lt_of_le_of_lt (Nat.zero_le b) hb
  have h1 : (a * T + b) / T = a := by
    rw [Nat.mul_comm a T, Nat.mul_add_div hT, Nat.div_eq_of_lt hb, Nat.add_zero]
  have h2 : (c * T + d) / T = c := by
    rw [Nat.mul_comm c T, Nat.mul_add_div hT, Nat.div_eq_of_lt hd, Nat.add_zero]
  rw [← h1, h, h2]

theorem getPixel_markDirty (s : Surface) (r : Rect) (q : Point) :
    (s.MarkDirty r).getPixel q = s.getPixel q := by
  unfold Surface.getPixel
  rw [MarkDirty_bits, MarkDirty_stride]

theorem getPixel_plot_other_row (s : Surface) (x y : Int) (c : Color)
    (rop : RasterOp) (q : Point) (hx0 : 0 ≤ x) (hxw : x < s.size.w)
    (hy0 : 0 ≤ y) (hq0 : 0 ≤ q.x) (hqw : q.x < s.size.w) (hqy : 0 ≤ q.y)
    (hstr : s.size.w ≤ 8 * s.stride_bytes) (hne : y ≠ q.y) :
    (s.PlotUnchecked x y c rop).getPixel q = s.getPixel q := by
  unfold Surface.PlotUnchecked
  split
  · rfl
  · rename_i hst
    cases hb : s.bits with
    | none => rfl
    | some buf =>
      unfold Surface.getPixel
      dsimp only
      have hxb : (x.tdiv 8).toNat < s.stride_bytes.toNat := by
        rw [Int.tdiv_eq_ediv hx0 (by omega)]
        omega
      have hqb : (q.x.tdiv 8).toNat < s.stride_bytes.toNat := by
        rw [Int.tdiv_eq_ediv hq0 (by omega)]
        omega
      have hidx := row_byte_ne q.y.toNat ((q.x.tdiv 8).toNat) y.toNat
        ((x.tdiv 8).toNat) s.stride_bytes.toNat hqb hxb (by omega)
      unfold writeByte
      rw [if_neg hidx, hb]

theorem foldl_preserve_mem {α : Type} (P : Surface → Prop)
    (f : Surface → α → Surface) :
    ∀ (l : List α), (∀ t a, a ∈ l → P t → P (f t a)) →
      ∀ s, P s → P (l.foldl f s) := by
  intro l
  induction l with
  | nil => intro _ s hs; exact hs
  | cons a t ih =>
    intro hf s hs
    exact ih (fun t2 b hb h2 => hf t2 b (List.mem_cons_of_mem a hb) h2) _
      (hf s a (List.mem_cons_self a t) hs)

theorem hlineRowAux (s : Surface) (r0 : Rect) (c : Color) (rop : RasterOp)
    (q : Point) (hr0 : ValidRect r0) (hy : r0.h = 1)
    (hclipv : ValidRect s.clip)
    (hclipsub : rectSubset s.clip (bounds_rect s.size))
    (hw32 : s.size.w ≤ 32768) (hstr : s.size.w ≤ 8 * s.stride_bytes)
    (hq0 : 0 ≤ q.x) (hqw : q.x < s.size.w) (hqy : 0 ≤ q.y) (hne : r0.y ≠ q.y) :
    Surface.getPixel (if rect_empty (intersect_rect r0 s.clip) = true then s
      else Surface.MarkDirty
        ((List.range (intersect_rect r0 s.clip).w.toNat).foldl
          (fun acc (i : Nat) => acc.PlotUnchecked
            (toInt16 ((intersect_rect r0 s.clip).x + i))
            (intersect_rect r0 s.clip).y c rop) s)
        (intersect_rect r0 s.clip)) q = s.getPixel q := by
  split
  · rfl
  · rename_i hemp
    have hb : rect_empty (intersect_rect r0 s.clip) = false := by
      cases h : rect_empty (intersect_rect r0 s.clip)
      · rfl
      · exact absurd h hemp
    have hrv := intersect_props r0 s.clip hr0 hclipv
    have hsubb : rectSubset (intersect_rect r0 s.clip) (bounds_rect s.size) :=
      rectSubset_trans _ _ _ hrv.2.2 hclipsub
    rw [rect_empty_eq_false_iff] at hb
    obtain ⟨hv1, hv2, hv3, hv4, hv5, hv6, hv7, hv8⟩ := hrv.1
    have hyy : (intersect_rect r0 s.clip).y = r0.y := by
      rcases hrv.2.1 with h | h
      · omega
      · omega
    have hbx : 0 ≤ (intersect_rect r0 s.clip).x ∧
        (intersect_rect r0 s.clip).x + (intersect_rect r0 s.clip).w ≤ s.size.w ∧
        0 ≤ (intersect_rect r0 s.clip).y := by
      rcases hsubb with h | h
      · omega
      · unfold bounds_rect at h
        dsimp only at h
        omega
    rw [getPixel_markDirty]
    have hfold := foldl_preserve_mem
      (fun t => t.getPixel q = s.getPixel q ∧ t.size = s.size ∧
        t.stride_bytes = s.stride_bytes)
      (fun acc (i : Nat) => acc.PlotUnchecked
        (toInt16 ((intersect_rect r0 s.clip).x + i))
        (intersect_rect r0 s.clip).y c rop)
      (List.range (intersect_rect r0 s.clip).w.toNat)
      (fun t i hi ht => by
        have hilt : (i : Int) < (intersect_rect r0 s.clip).w := by
          have := List.mem_range.mp hi
          omega
        have hxv : toInt16 ((intersect_rect r0 s.clip).x + i) =
            (intersect_rect r0 s.clip).x + i :=
          toInt16_eq_self _ (by omega) (by omega)
        refine ⟨?_, ?_, ?_⟩
        · rw [getPixel_plot_other_row t _ _ c rop q (by omega)
            (by rw [hxv, ht.2.1]; omega) (by omega) hq0
            (by rw [ht.2.1]; exact hqw) hqy
            (by rw [ht.2.1, ht.2.2]; exact hstr) (by omega)]
          exact ht.1
        · rw [Plot_size]
          exact ht.2.1
        · rw [Plot_stride]
          exact ht.2.2)
      s ⟨rfl, rfl, rfl⟩
    exact hfold.1

theorem getPixel_hline_other_row (s : Surface) (p : Point) (l : Int) (c : Color)
    (rop : RasterOp) (q : Point)
    (hpy1 : -32768 ≤ p.y) (hpy2 : p.y < 32768)
    (hclipv : ValidRect s.clip)
    (hclipsub : rectSubset s.clip (bounds_rect s.size))
    (hw32 : s.size.w ≤ 32768) (hstr : s.size.w ≤ 8 * s.stride_bytes)
    (hq0 : 0 ≤ q.x) (hqw : q.x < s.size.w) (hqy : 0 ≤ q.y) (hne : p.y ≠ q.y) :
    (s.DrawHLine p l c rop).getPixel q = s.getPixel q := by
  unfold Surface.DrawHLine
  dsimp only
  split
  · rfl
  · by_cases hl : l < 0
    · simp only [hl, if_true]
      split
      · rfl
      · exact hlineRowAux s ⟨toInt16 (p.x + l), p.y, toUInt16 (-l), 1⟩ c rop q
          (validRect_fields _ _ _ _ (toInt16_lb _) (toInt16_ub _) hpy1 hpy2
            (toUInt16_lb _) (toUInt16_ub _) (by omega) (by omega)) rfl
          hclipv hclipsub hw32 hstr hq0 hqw hqy hne
    · simp only [hl, if_false]
      split
      · rfl
      · exact hlineRowAux s ⟨toInt16 p.x, p.y, toUInt16 l, 1⟩ c rop q
          (validRect_fields _ _ _ _ (toInt16_lb _) (toInt16_ub _) hpy1 hpy2
            (toUInt16_lb _) (toUInt16_ub _) (by omega) (by omega)) rfl
          hclipv hclipsub hw32 hstr hq0 hqw hqy hne

theorem plotFoldl_shape2 (s : Surface) (l : List Nat) (f : Surface → Nat → Surface)
    (hf : ∀ t i, (f t i).size = t.size ∧ (f t i).clip = t.clip ∧
      (f t i).stride_bytes = t.stride_bytes) :
    (l.foldl f s).size = s.size ∧ (l.foldl f s).clip = s.clip ∧
      (l.foldl f s).stride_bytes = s.stride_bytes := by
  have := foldl_preserve
    (fun t => t.size = s.size ∧ t.clip = s.clip ∧ t.stride_bytes = s.stride_bytes)
    f (fun t i ht => by
      obtain ⟨a, b, d⟩ := ht
      obtain ⟨a2, b2, d2⟩ := hf t i
      exact ⟨a2.trans a, b2.trans b, d2.trans d⟩) l s ⟨rfl, rfl, rfl⟩
  exact this

theorem hlineShapeAux (s : Surface) (r0 : Rect) (c : Color) (rop : RasterOp) :
    (if rect_empty (intersect_rect r0 s.clip) = true then s
      else Surface.MarkDirty
        ((List.range (intersect_rect r0 s.clip).w.toNat).foldl
          (fun acc (i : Nat) => acc.PlotUnchecked
            (toInt16 ((intersect_rect r0 s.clip).x + i))
            (intersect_rect r0 s.clip).y c rop) s)
        (intersect_rect r0 s.clip)).size = s.size ∧
    (if rect_empty (intersect_rect r0 s.clip) = true then s
      else Surface.MarkDirty
        ((List.range (intersect_rect r0 s.clip).w.toNat).foldl
          (fun acc (i : Nat) => acc.PlotUnchecked
            (toInt16 ((intersect_rect r0 s.clip).x + i))
            (intersect_rect r0 s.clip).y c rop) s)
        (intersect_rect r0 s.clip)).clip = s.clip ∧
    (if rect_empty (intersect_rect r0 s.clip) = true then s
      else Surface.MarkDirty
        ((List.range (intersect_rect r0 s.clip).w.toNat).foldl
          (fun acc (i : Nat) => acc.PlotUnchecked
            (toInt16 ((intersect_rect r0 s.clip).x + i))
            (intersect_rect r0 s.clip).y c rop) s)
        (intersect_rect r0 s.clip)).stride_bytes = s.stride_bytes := by
  split
  · exact ⟨rfl, rfl, rfl⟩
  · have hsh := plotFoldl_shape2 s (List.range (intersect_rect r0 s.clip).w.toNat)
      (fun acc (i : Nat) => acc.PlotUnchecked
        (toInt16 ((intersect_rect r0 s.clip).x + i))
        (intersect_rect r0 s.clip).y c rop)
      (fun t i => ⟨Plot_size .., Plot_clip .., Plot_stride ..⟩)
    refine ⟨?_, ?_, ?_⟩
    · rw [MarkDirty_size]
      exact hsh.1
    · rw [MarkDirty_clip]
      exact hsh.2.1
    · rw [MarkDirty_stride]
      exact hsh.2.2

theorem DrawHLine_shape (s : Surface) (p : Point) (l : Int) (c : Color)
    (rop : RasterOp) :
    (s.DrawHLine p l c rop).size = s.size ∧ (s.DrawHLine p l c rop).clip = s.clip ∧
      (s.DrawHLine p l c rop).stride_bytes = s.stride_bytes := by
  unfold Surface.DrawHLine
  dsimp only
  split
  · exact ⟨rfl, rfl, rfl⟩
  · by_cases hl : l < 0
    · simp only [hl, if_true]
      split
      · exact ⟨rfl, rfl, rfl⟩
      · exact hlineShapeAux s ⟨toInt16 (p.x + l), p.y, toUInt16 (-l), 1⟩ c rop
    · simp only [hl, if_false]
      split
      · exact ⟨rfl, rfl, rfl⟩
      · exact hlineShapeAux s ⟨toInt16 p.x, p.y, toUInt16 l, 1⟩ c rop

theorem DrawRect_h_one (s : Surface) (r : Rect) (c : Color) (rop : RasterOp)
    (hne : rect_empty r = false) (hh : r.h = 1) :
    s.DrawRect r c rop = s.DrawHLine ⟨r.x, r.y⟩ (toInt16 r.w) c rop := by
  unfold Surface.DrawRect
  have h0 : ¬(rect_empty r = true) := by rw [hne]; exact fun h => nomatch h
  have h1 : ¬((1 : Int) < r.h) := by omega
  have h2 : ¬((2 : Int) < r.h) := by omega
  simp only [if_neg h0, if_neg h1, if_neg h2]

theorem DrawRect_h_two (s : Surface) (r : Rect) (c : Color) (rop : RasterOp)
    (hne : rect_empty r = false) (hh : r.h = 2) :
    s.DrawRect r c rop =
      (s.DrawHLine ⟨r.x, r.y⟩ (toInt16 r.w) c rop).DrawHLine
        ⟨r.x, toInt16 (r.y + r.h - 1)⟩ (toInt16 r.w) c rop := by
  unfold Surface.DrawRect
  have h0 : ¬(rect_empty r = true) := by rw [hne]; exact fun h => nomatch h
  have h1 : (1 : Int) < r.h := by omega
  have h2 : ¬((2 : Int) < r.h) := by omega
  simp only [if_neg h0, if_pos h1, if_neg h2]

/-- Blank 1x40000 surface for the C9 counterexample. -/
def surfaceC9 : Surface := Surface.Bind Surface.init (some (fun _ => 0)) ⟨1, 40000⟩ 0

/-- C9 counterexample: for a rect of height 40000 (greater than 2), the
int16_t cast of height-2 in DrawRect makes the vertical edge length
negative, so the left vertical line does not cover the interior rows: row 5
stays blank although the claim says the left vertical edge covers rows
y+1 .. y+h-2. -/
theorem C9_counterexample :
    (2 : Int) < (40000 : Int) ∧
    (1 : Int) ≤ 5 ∧ (5 : Int) ≤ 40000 - 2 ∧
    Surface.getPixel (surfaceC9.DrawRect ⟨0, 0, 1, 40000⟩ Color.WHITE RasterOp.COPY)
      ⟨0, 5⟩ = false ∧
    Surface.getPixel (surfaceC9.DrawRect ⟨0, 0, 1, 40000⟩ Color.WHITE RasterOp.COPY)
      ⟨0, 0⟩ = true := by
  exact ⟨by decide, by decide, by decide, by decide, by decide⟩

/-- C9 (amended): for a non-empty rect, height 1 draws only the top
horizontal line and height 2 draws only the top and bottom horizontal
lines — no vertical-edge call is made and, on a well-formed bound surface,
no pixel outside those two rows changes; for 2 < height ≤ 32769 (so the
int16_t cast of height-2 stays positive) DrawRect additionally draws left
and right vertical lines of length height-2 starting at row y+1, i.e.
restricted to the interior rows y+1 .. y+h-2. -/
theorem C9_theorem (s : Surface) (r : Rect) (c : Color) (rop : RasterOp)
    (hne : rect_empty r = false) (hv : ValidRect r) :
    (r.h = 1 → s.DrawRect r c rop = s.DrawHLine ⟨r.x, r.y⟩ (toInt16 r.w) c rop) ∧
    (r.h = 2 → s.DrawRect r c rop =
      (s.DrawHLine ⟨r.x, r.y⟩ (toInt16 r.w) c rop).DrawHLine
        ⟨r.x, toInt16 (r.y + r.h - 1)⟩ (toInt16 r.w) c rop) ∧
    (∀ q : Point, (r.h = 1 ∨ r.h = 2) → ValidRect s.clip →
      rectSubset s.clip (bounds_rect s.size) → s.size.w ≤ 32768 →
      s.size.w ≤ 8 * s.stride_bytes → 0 ≤ q.x → q.x < s.size.w → 0 ≤ q.y →
      q.y ≠ r.y → q.y ≠ r.y + r.h - 1 →
      (s.DrawRect r c rop).getPixel q = s.getPixel q) ∧
    (2 < r.h → r.h ≤ 32769 →
      toInt16 (r.h - 2) = r.h - 2 ∧ 0 < r.h - 2 ∧
      s.DrawRect r c rop =
        (if 1 < r.w then
          (((s.DrawHLine ⟨r.x, r.y⟩ (toInt16 r.w) c rop).DrawHLine
            ⟨r.x, toInt16 (r.y + r.h - 1)⟩ (toInt16 r.w) c rop).DrawVLine
            ⟨r.x, toInt16 (r.y + 1)⟩ (r.h - 2) c rop).DrawVLine
            ⟨toInt16 (r.x + r.w - 1), toInt16 (r.y + 1)⟩ (r.h - 2) c rop
        else
          ((s.DrawHLine ⟨r.x, r.y⟩ (toInt16 r.w) c rop).DrawHLine
            ⟨r.x, toInt16 (r.y + r.h - 1)⟩ (toInt16 r.w) c rop).DrawVLine
            ⟨r.x, toInt16 (r.y + 1)⟩ (r.h - 2) c rop)) := by
  obtain ⟨hvx1, hvx2, hvy1, hvy2, hvw1, hvw2, hvh1, hvh2⟩ := hv
  refine ⟨?_, ?_, ?_, ?_⟩
  · intro hh
    exact DrawRect_h_one s r c rop hne hh
  · intro hh
    exact DrawRect_h_two s r c rop hne hh
  · intro q h12 hclipv hclipsub hw32 hstr hq0 hqw hqy hyq1 hyq2
    rcases h12 with hh | hh
    · rw [DrawRect_h_one s r c rop hne hh]
      exact getPixel_hline_other_row s ⟨r.x, r.y⟩ (toInt16 r.w) c rop q hvy1 hvy2
        hclipv hclipsub hw32 hstr hq0 hqw hqy (by dsimp only; omega)
    · rw [DrawRect_h_two s r c rop hne hh]
      have hsh := DrawHLine_shape s ⟨r.x, r.y⟩ (toInt16 r.w) c rop
      rw [getPixel_hline_other_row (s.DrawHLine ⟨r.x, r.y⟩ (toInt16 r.w) c rop)
        ⟨r.x, toInt16 (r.y + r.h - 1)⟩ (toInt16 r.w) c rop q
        (by dsimp only; exact toInt16_lb _) (by dsimp only; exact toInt16_ub _)
        (by rw [hsh.2.1]; exact hclipv)
        (by rw [hsh.2.1, hsh.1]; exact hclipsub)
        (by rw [hsh.1]; exact hw32)
        (by rw [hsh.1, hsh.2.2]; exact hstr)
        hq0 (by rw [hsh.1]; exact hqw) hqy
        (by dsimp only; unfold toInt16; omega)]
      exact getPixel_hline_other_row s ⟨r.x, r.y⟩ (toInt16 r.w) c rop q hvy1 hvy2
        hclipv hclipsub hw32 hstr hq0 hqw hqy (by dsimp only; omega)
  · intro hh1 hh2
    have hcast : toInt16 (r.h - 2) = r.h - 2 :=
      toInt16_eq_self _ (by omega) (by omega)
    refine ⟨hcast, by omega, ?_⟩
    unfold Surface.DrawRect
    have h0 : ¬(rect_empty r = true) := by rw [hne]; exact fun h => nomatch h
    have h1 : (1 : Int) < r.h := by omega
    simp only [if_neg h0, if_pos h1, if_pos hh1, hcast]

/-- Blank 8x8 surface with full clip for the C9 witness. -/
def surfaceW9 : Surface := Surface.Bind Surface.init (some (fun _ => 0)) ⟨8, 8⟩ 0

/-- C9 witness: the amended statement applied to a concrete height-2 rect on
a concrete bound surface, checking both the two-horizontal-lines shape and
that a pixel in another row is untouched. -/
theorem C9_witness :
    rect_empty ⟨1, 1, 4, 2⟩ = false ∧
    (surfaceW9.DrawRect ⟨1, 1, 4, 2⟩ Color.WHITE RasterOp.COPY =
      (surfaceW9.DrawHLine ⟨1, 1⟩ (toInt16 4) Color.WHITE RasterOp.COPY).DrawHLine
        ⟨1, toInt16 (1 + 2 - 1)⟩ (toInt16 4) Color.WHITE RasterOp.COPY) ∧
    Surface.getPixel (surfaceW9.DrawRect ⟨1, 1, 4, 2⟩ Color.WHITE RasterOp.COPY)
      ⟨2, 4⟩ = Surface.getPixel surfaceW9 ⟨2, 4⟩ :=
  ⟨by decide,
    (C9_theorem surfaceW9 ⟨1, 1, 4, 2⟩ Color.WHITE RasterOp.COPY (by decide)
      (by unfold ValidRect; dsimp only; omega)).2.1 rfl,
    (C9_theorem surfaceW9 ⟨1, 1, 4, 2⟩ Color.WHITE RasterOp.COPY (by decide)
      (by unfold ValidRect; dsimp only; omega)).2.2.1 ⟨2, 4⟩ (Or.inr rfl)
      (by unfold ValidRect; decide)
      (by unfold rectSubset bounds_rect; decide)
      (by decide) (by decide) (by decide) (by decide) (by decide) (by decide)
      (by decide)⟩

end MonoGL
